import Mathlib

set_option autoImplicit false

/-!
Verification of the GreenTracker backup reconciliation engine
(ImportService.importFromZipBuffer and its helpers), shallowly embedded
from the TypeScript sources.  Archive parsing follows the zod schemas
BackupPlantSchema .. BackupDataSchema; the restore passes follow
restoreLocations, restorePlants, restorePlantImage,
restoreWateringHistory and restoreNotificationSettings.  The in-memory
storage semantics follow MemStorage (server/storage.ts); the handful of
storage methods consumed by the import service whose implementation is
not part of the sources (deleteAllUserData, upsertLocationByName,
findPlantByDetails, createWateringHistory, updateNotificationSettings)
are modelled from the specification and marked as such.
-/

namespace GreenTracker

/-- A date value as the import pipeline sees it: the code only ever wraps
the incoming string in a Date object and stores it, never computing with
it, so a date is modelled by the string it was built from. -/
structure DateVal where
  raw : String
deriving DecidableEq

/-- JSON documents, the result of JSON.parse on backup.json. -/
inductive Json where
  | null
  | bool (b : Bool)
  | num (n : Int)
  | str (s : String)
  | arr (elems : List Json)
  | obj (fields : List (String × Json))

/-- Field lookup on a JSON object; a missing key models undefined. -/
def Json.getField : Json → String → Option Json
  | .obj fields, k => (fields.find? (fun f => f.1 == k)).map (fun f => f.2)
  | _, _ => none

/-! ## Validated backup records (the zod schemas of importService) -/

/-- BackupPlantSchema: lastWatered is transformed by
val ? new Date(val) : undefined, so null and the empty string both
become undefined. -/
structure BackupPlant where
  id : Int
  name : String
  species : Option String
  location : String
  wateringFrequency : Int
  lastWatered : Option DateVal
  notes : Option String
  imageUrl : Option String
  userId : Int
deriving DecidableEq

/-- BackupLocationSchema. -/
structure BackupLocation where
  id : Int
  name : String
  isDefault : Bool
  userId : Int
deriving DecidableEq

/-- BackupWateringHistorySchema. -/
structure BackupWateringEntry where
  id : Int
  plantId : Int
  wateredAt : DateVal
deriving DecidableEq

/-- BackupNotificationSettingsSchema: only these five fields are read
from the archive block; every other key is stripped by the schema. -/
structure BackupNotifSettings where
  enabled : Bool
  pushoverEnabled : Option Bool
  emailEnabled : Option Bool
  emailAddress : Option (Option String)
  lastUpdated : DateVal
deriving DecidableEq

/-- BackupExportInfoSchema. -/
structure BackupExportInfo where
  version : String
  exportedAt : DateVal
  username : String
deriving DecidableEq

/-- BackupDataSchema. -/
structure BackupData where
  exportInfo : BackupExportInfo
  plants : List BackupPlant
  locations : List BackupLocation
  wateringHistory : List BackupWateringEntry
  notificationSettings : Option BackupNotifSettings
deriving DecidableEq

/-! ## zod primitive parsers
zod.parse throws on the first structural mismatch of a required field;
absence of a key is undefined, which fails required fields and succeeds
for optional ones.  Unknown keys are stripped (never read). -/

def parseString : Option Json → Except String String
  | some (.str s) => .ok s
  | _ => .error "Expected string"

def parseNumber : Option Json → Except String Int
  | some (.num n) => .ok n
  | _ => .error "Expected number"

def parseBool : Option Json → Except String Bool
  | some (.bool b) => .ok b
  | _ => .error "Expected boolean"

def parseNullableString : Option Json → Except String (Option String)
  | some (.str s) => .ok (some s)
  | some .null => .ok none
  | _ => .error "Expected string or null"

def parseOptionalBool : Option Json → Except String (Option Bool)
  | none => .ok none
  | some (.bool b) => .ok (some b)
  | _ => .error "Expected boolean"

def parseOptionalNullableString : Option Json → Except String (Option (Option String))
  | none => .ok none
  | some .null => .ok (some none)
  | some (.str s) => .ok (some (some s))
  | _ => .error "Expected string or null"

/-- z.string().transform(val => new Date(val)). -/
def parseDateString : Option Json → Except String DateVal
  | some (.str s) => .ok ⟨s⟩
  | _ => .error "Expected string"

/-- z.string().nullable().transform(val => val ? new Date(val) : undefined):
null and the empty string (both falsy) become undefined. -/
def parseNullableDate : Option Json → Except String (Option DateVal)
  | some (.str s) => .ok (if s = "" then none else some ⟨s⟩)
  | some .null => .ok none
  | _ => .error "Expected string or null"

def parseArrayWith {α : Type} (p : Json → Except String α) : Option Json → Except String (List α)
  | some (.arr xs) => xs.mapM p
  | _ => .error "Expected array"

/-! ## Record parsers -/

def parseBackupPlant (j : Json) : Except String BackupPlant :=
  match j with
  | .obj _ => do
    let id ← parseNumber (j.getField "id")
    let name ← parseString (j.getField "name")
    let species ← parseNullableString (j.getField "species")
    let location ← parseString (j.getField "location")
    let wateringFrequency ← parseNumber (j.getField "wateringFrequency")
    let lastWatered ← parseNullableDate (j.getField "lastWatered")
    let notes ← parseNullableString (j.getField "notes")
    let imageUrl ← parseNullableString (j.getField "imageUrl")
    let userId ← parseNumber (j.getField "userId")
    .ok { id := id, name := name, species := species, location := location,
          wateringFrequency := wateringFrequency, lastWatered := lastWatered,
          notes := notes, imageUrl := imageUrl, userId := userId }
  | _ => .error "Expected object"

def parseBackupLocation (j : Json) : Except String BackupLocation :=
  match j with
  | .obj _ => do
    let id ← parseNumber (j.getField "id")
    let name ← parseString (j.getField "name")
    let isDefault ← parseBool (j.getField "isDefault")
    let userId ← parseNumber (j.getField "userId")
    .ok { id := id, name := name, isDefault := isDefault, userId := userId }
  | _ => .error "Expected object"

def parseBackupWateringEntry (j : Json) : Except String BackupWateringEntry :=
  match j with
  | .obj _ => do
    let id ← parseNumber (j.getField "id")
    let plantId ← parseNumber (j.getField "plantId")
    let wateredAt ← parseDateString (j.getField "wateredAt")
    .ok { id := id, plantId := plantId, wateredAt := wateredAt }
  | _ => .error "Expected object"

def parseBackupNotifSettings (j : Json) : Except String BackupNotifSettings :=
  match j with
  | .obj _ => do
    let enabled ← parseBool (j.getField "enabled")
    let pushoverEnabled ← parseOptionalBool (j.getField "pushoverEnabled")
    let emailEnabled ← parseOptionalBool (j.getField "emailEnabled")
    let emailAddress ← parseOptionalNullableString (j.getField "emailAddress")
    let lastUpdated ← parseDateString (j.getField "lastUpdated")
    .ok { enabled := enabled, pushoverEnabled := pushoverEnabled,
          emailEnabled := emailEnabled, emailAddress := emailAddress,
          lastUpdated := lastUpdated }
  | _ => .error "Expected object"

def parseBackupExportInfo (j : Option Json) : Except String BackupExportInfo :=
  match j with
  | some jj =>
    match jj with
    | .obj _ => do
      let version ← parseString (jj.getField "version")
      let exportedAt ← parseDateString (jj.getField "exportedAt")
      let username ← parseString (jj.getField "username")
      .ok { version := version, exportedAt := exportedAt, username := username }
    | _ => .error "Expected object"
  | none => .error "Expected object"

/-- BackupDataSchema.parse: one strict validation of the whole manifest;
any failing record makes the whole parse fail (zod throws a ZodError). -/
def parseBackupData (j : Json) : Except String BackupData :=
  match j with
  | .obj _ => do
    let exportInfo ← parseBackupExportInfo (j.getField "exportInfo")
    let plants ← parseArrayWith parseBackupPlant (j.getField "plants")
    let locations ← parseArrayWith parseBackupLocation (j.getField "locations")
    let wateringHistory ← parseArrayWith parseBackupWateringEntry (j.getField "wateringHistory")
    let notificationSettings ←
      match j.getField "notificationSettings" with
      | none => Except.ok (Option.none)
      | some js => (parseBackupNotifSettings js).map Option.some
    .ok { exportInfo := exportInfo, plants := plants, locations := locations,
          wateringHistory := wateringHistory, notificationSettings := notificationSettings }
  | _ => .error "Expected object"

/-! ## Live entities and the storage state -/

/-- A row of the plants table as the in-memory storage keeps it. -/
structure StoredPlant where
  id : Nat
  name : String
  species : Option String
  location : String
  wateringFrequency : Int
  lastWatered : DateVal
  notes : Option String
  imageUrl : Option String
  userId : Nat
deriving DecidableEq

/-- A row of the locations table. -/
structure StoredLocation where
  id : Nat
  name : String
  isDefault : Bool
deriving DecidableEq

/-- A row of the watering history table. -/
structure StoredWatering where
  id : Nat
  plantId : Nat
  wateredAt : DateVal
  userId : Nat
deriving DecidableEq

/-- The notification settings row (shared/schema.ts): the three
credential columns pushoverAppToken, pushoverUserKey and sendgridApiKey
live next to the toggles and the contact address. -/
structure LiveNotifSettings where
  enabled : Bool
  pushoverAppToken : Option String
  pushoverUserKey : Option String
  pushoverEnabled : Bool
  emailEnabled : Bool
  emailAddress : Option String
  sendgridApiKey : Option String
deriving DecidableEq

/-- InsertPlant as built by restorePlants. -/
structure InsertPlant where
  name : String
  species : Option String
  location : String
  wateringFrequency : Int
  lastWatered : DateVal
  notes : Option String
  imageUrl : Option String
  userId : Nat
deriving DecidableEq

/-- A typed Partial of InsertPlant: a field that is none is absent from
the update object and is left unchanged by the spread in updatePlant. -/
structure PlantUpdate where
  name : Option String := none
  species : Option (Option String) := none
  location : Option String := none
  wateringFrequency : Option Int := none
  lastWatered : Option DateVal := none
  notes : Option (Option String) := none
  imageUrl : Option (Option String) := none
  userId : Option Nat := none
deriving DecidableEq

/-- InsertWateringHistory as built by restoreWateringHistory. -/
structure InsertWatering where
  plantId : Nat
  wateredAt : DateVal
  userId : Nat
deriving DecidableEq

/-- The safe subset of notification settings that
restoreNotificationSettings sends to storage.  The outer Option on
emailAddress distinguishes an absent archive field (undefined, left
unchanged by the update) from an explicit null. -/
structure SafeNotifSettings where
  enabled : Bool
  pushoverEnabled : Bool
  emailEnabled : Bool
  emailAddress : Option (Option String)
deriving DecidableEq

/-- The storage state for one user.  Id counters start at 1 as in
MemStorage.  failingPlantNames is the persistence failure model: the
set of plant inserts the storage collaborator rejects.
Modelled from the spec: section 7 PersistenceError says the storage
collaborator may fail for a single record; the database-backed storage
is not part of the sources, so its per-record failure is modelled by a
fixed set of failing insert names. -/
structure Store where
  nextLocationId : Nat
  nextPlantId : Nat
  nextWateringId : Nat
  locations : List StoredLocation
  plants : List StoredPlant
  watering : List StoredWatering
  notificationSettings : LiveNotifSettings
  failingPlantNames : List String
deriving DecidableEq

/-- JavaScript toLowerCase, modelled on the character list of the
string. -/
def strLower (s : String) : String := ⟨s.data.map Char.toLower⟩

/-- JavaScript startsWith, modelled on the character lists. -/
def strStartsWith (s pre : String) : Bool := pre.data.isPrefixOf s.data

/-- JavaScript falsy coercion x || null on a nullable string: the empty
string collapses to null (MemStorage.createPlant does this to species
and notes). -/
def jsOrNull : Option String → Option String
  | some s => if s = "" then none else some s
  | none => none

/-- JavaScript truthiness of a nullable string: null and the empty
string are falsy. -/
def jsTruthyStr : Option String → Bool
  | some s => !(s == "")
  | none => false

/-- Storage calls, recorded as a trace in the order the import makes
them. -/
inductive StorageCall where
  | deleteAllUserData
  | getAllLocations
  | upsertLocationByName (name : String) (isDefault : Bool)
  | findPlantByDetails (name : String) (species : Option String) (location : String)
  | createPlant (data : InsertPlant)
  | updatePlant (id : Nat) (data : PlantUpdate)
  | createWateringHistory (data : InsertWatering)
  | updateNotificationSettings (data : SafeNotifSettings)
deriving DecidableEq

/-! ## Storage operations -/

/-- MemStorage.getAllLocations. -/
def Store.getAllLocations (st : Store) : List StoredLocation :=
  st.locations

/-- Modelled from the spec: upsertLocationByName is consumed by
restoreLocations but its implementation (database storage layer) is not
part of the sources.  Spec sections 4.3 step 2 and 4.4: the location
matcher is case-insensitive name equality among the existing locations,
with no restriction on the default flag; if matched, the existing
location is reused, otherwise a new one is created with the requested
flag. -/
def Store.upsertLocationByName (st : Store) (name : String) (isDefault : Bool) :
    StoredLocation × Store :=
  match st.locations.find? (fun l => strLower l.name == strLower name) with
  | some l => (l, st)
  | none =>
    let l : StoredLocation := { id := st.nextLocationId, name := name, isDefault := isDefault }
    (l, { st with locations := st.locations ++ [l], nextLocationId := st.nextLocationId + 1 })

/-- The plant matcher predicate: composite equality on name, species and
location, case-insensitive, with the empty-string-to-null coercion the
storage layer applies to species. -/
def plantMatches (p : StoredPlant) (name : String) (species : Option String) (location : String) : Bool :=
  strLower p.name == strLower name &&
  strLower p.location == strLower location &&
  (jsOrNull p.species).map strLower == (jsOrNull species).map strLower

/-- Modelled from the spec: findPlantByDetails is consumed by
restorePlants but its implementation is not part of the sources.  Spec
sections 4.3 and 4.4: composite equality on name + species + location,
case-insensitive, first match by iteration order, absence of species on
both sides comparing as equal. -/
def Store.findPlantByDetails (st : Store) (name : String) (species : Option String) (location : String) :
    Option StoredPlant :=
  st.plants.find? (fun p => plantMatches p name species location)

/-- MemStorage.createPlant: assign the next id, coerce falsy species and
notes to null, append.  A name in failingPlantNames makes the insert
fail (spec section 7 PersistenceError). -/
def Store.createPlant (st : Store) (p : InsertPlant) : Except String (StoredPlant × Store) :=
  if p.name ∈ st.failingPlantNames then
    .error ("storage failure creating plant " ++ p.name)
  else
    let plant : StoredPlant :=
      { id := st.nextPlantId, name := p.name, species := jsOrNull p.species,
        location := p.location, wateringFrequency := p.wateringFrequency,
        lastWatered := p.lastWatered, notes := jsOrNull p.notes,
        imageUrl := p.imageUrl, userId := p.userId }
    .ok (plant, { st with plants := st.plants ++ [plant], nextPlantId := st.nextPlantId + 1 })

/-- The spread { ...existingPlant, ...plantUpdate } of
MemStorage.updatePlant: present fields overwrite, absent fields keep the
existing value. -/
def applyPlantUpdate (p : StoredPlant) (u : PlantUpdate) : StoredPlant :=
  { id := p.id,
    name := u.name.getD p.name,
    species := u.species.getD p.species,
    location := u.location.getD p.location,
    wateringFrequency := u.wateringFrequency.getD p.wateringFrequency,
    lastWatered := u.lastWatered.getD p.lastWatered,
    notes := u.notes.getD p.notes,
    imageUrl := u.imageUrl.getD p.imageUrl,
    userId := u.userId.getD p.userId }

/-- MemStorage.updatePlant: undefined when the id is unknown, otherwise
the merged row is stored and returned. -/
def Store.updatePlant (st : Store) (id : Nat) (u : PlantUpdate) :
    Option StoredPlant × Store :=
  match st.plants.find? (fun p => p.id == id) with
  | none => (none, st)
  | some p0 =>
    (some (applyPlantUpdate p0 u),
     { st with plants := st.plants.map (fun p => if p.id == id then applyPlantUpdate p u else p) })

/-- Modelled from the spec: createWateringHistory is consumed by
restoreWateringHistory but its implementation is not part of the
sources.  Spec section 4.3 step 5: create the event under the resolved
plant id; modelled as a plain insert that assigns the next id. -/
def Store.createWateringHistory (st : Store) (w : InsertWatering) : Store :=
  { st with
    watering := st.watering ++
      [{ id := st.nextWateringId, plantId := w.plantId, wateredAt := w.wateredAt, userId := w.userId }],
    nextWateringId := st.nextWateringId + 1 }

/-- Modelled from the spec: updateNotificationSettings is consumed by
restoreNotificationSettings but its implementation is not part of the
sources.  Spec section 4.3 step 6: apply only the given non-sensitive
fields; an absent (undefined) emailAddress leaves the stored value; the
credential columns are not part of the update payload and keep their
values. -/
def Store.updateNotificationSettings (st : Store) (s : SafeNotifSettings) : Store :=
  { st with
    notificationSettings :=
      { st.notificationSettings with
        enabled := s.enabled,
        pushoverEnabled := s.pushoverEnabled,
        emailEnabled := s.emailEnabled,
        emailAddress :=
          match s.emailAddress with
          | none => st.notificationSettings.emailAddress
          | some v => v } }

/-- Modelled from the spec: deleteAllUserData is consumed by the
replace mode of importFromZipBuffer but its implementation is not part
of the sources.  Spec section 4.3 step 1: delete all of the current
user entities of the managed types, children first — watering history,
plants and the non-default locations. -/
def Store.deleteAllUserData (st : Store) : Store :=
  { st with
    watering := [],
    plants := [],
    locations := st.locations.filter (fun l => l.isDefault) }

/-! ## The import service -/

/-- ImportMode. -/
inductive ImportMode where
  | merge
  | replace
deriving DecidableEq

/-- ImportSummary. -/
structure ImportSummary where
  mode : ImportMode
  plantsCreated : Nat
  plantsUpdated : Nat
  plantsSkipped : Nat
  locationsCreated : Nat
  wateringHistoryCreated : Nat
  imagesRestored : Nat
  notificationSettingsUpdated : Bool
  warnings : List String
deriving DecidableEq

/-- The zero-initialised summary importFromZipBuffer starts from. -/
def initialSummary (mode : ImportMode) : ImportSummary :=
  { mode := mode, plantsCreated := 0, plantsUpdated := 0, plantsSkipped := 0,
    locationsCreated := 0, wateringHistoryCreated := 0, imagesRestored := 0,
    notificationSettingsUpdated := false, warnings := [] }

/-- The state one import call threads along: the storage state, the
trace of storage calls made so far, and the mutable summary. -/
structure Ctx where
  store : Store
  trace : List StorageCall
  summary : ImportSummary
deriving DecidableEq

/-- JavaScript Map.set: overwrite the entry of an existing key, append
otherwise. -/
def mapSet {κ ν : Type} [BEq κ] (k : κ) (v : ν) : List (κ × ν) → List (κ × ν)
  | [] => [(k, v)]
  | (k0, v0) :: rest => if k0 == k then (k, v) :: rest else (k0, v0) :: mapSet k v rest

/-- JavaScript Map.get: undefined when the key is absent. -/
def mapGet {κ ν : Type} [BEq κ] (k : κ) : List (κ × ν) → Option ν
  | [] => none
  | (k0, v0) :: rest => if k0 == k then some v0 else mapGet k rest

/-- The existence check of restoreLocations: a case-insensitive name
match among the existing non-default locations. -/
def locationExistsCheck (st : Store) (name : String) : Bool :=
  st.getAllLocations.any (fun ex => strLower ex.name == strLower name && !ex.isDefault)

/-- restoreLocations, one record: default locations are not restored at
all; otherwise the existence check (case-insensitive name match among
non-default locations) runs on the state before the upsert, and
locationsCreated is incremented only when no such match existed.  The
modelled upsert cannot fail, so the per-record catch branch is
unreachable. -/
def restoreLocationStep (loc : BackupLocation) (m : List (String × String)) (c : Ctx) :
    List (String × String) × Ctx :=
  if loc.isDefault then
    (m, c)
  else
    let locationExists := locationExistsCheck c.store loc.name
    let upres := c.store.upsertLocationByName loc.name false
    let m1 := mapSet loc.name upres.1.name m
    let sum1 :=
      if !locationExists then
        { c.summary with locationsCreated := c.summary.locationsCreated + 1 }
      else c.summary
    (m1, { store := upres.2,
           trace := c.trace ++ [.getAllLocations, .upsertLocationByName loc.name false],
           summary := sum1 })

def restoreLocationsAux : List BackupLocation → List (String × String) → Ctx →
    List (String × String) × Ctx
  | [], m, c => (m, c)
  | loc :: rest, m, c =>
    let r := restoreLocationStep loc m c
    restoreLocationsAux rest r.1 r.2

/-- restoreLocations. -/
def restoreLocations (locations : List BackupLocation) (c : Ctx) :
    List (String × String) × Ctx :=
  restoreLocationsAux locations [] c

/-- restorePlantImage: look up an asset named plant-{oldId}-*, but the
upload to object storage is not implemented (commented out in the
source), so the function returns false on every path. -/
def restorePlantImage (oldPlantId : Int) (newPlantId : Nat)
    (imageFiles : List (String × String)) : Bool :=
  let imagePattern := "plant-" ++ toString oldPlantId ++ "-"
  match imageFiles.find? (fun f => strStartsWith f.1 imagePattern) with
  | none => false
  | some _ => false

/-- The update object restorePlants builds for a matched plant:
wateringFrequency and notes always, lastWatered only when the backup
carried one. -/
def updateDataFor (plant : BackupPlant) : PlantUpdate :=
  { wateringFrequency := some plant.wateringFrequency,
    notes := some plant.notes,
    lastWatered := plant.lastWatered }

/-- The InsertPlant restorePlants builds on the create path: imageUrl
stays null, userId is the placeholder 0, a missing lastWatered defaults
to now. -/
def plantDataFor (plant : BackupPlant) (now : DateVal) : InsertPlant :=
  { name := plant.name, species := plant.species, location := plant.location,
    wateringFrequency := plant.wateringFrequency,
    lastWatered := plant.lastWatered.getD now,
    notes := plant.notes, imageUrl := none, userId := 0 }

/-- The create path of restorePlants for one record, including the
catch branch: a rejected insert appends a warning and increments
plantsSkipped; a successful insert records the id mapping, attempts the
image restore when the record declared a (truthy) image and assets
exist, and increments plantsCreated. -/
def restorePlantCreate (imageFiles : List (String × String)) (now : DateVal)
    (plant : BackupPlant) (pm : List (Int × Nat)) (c : Ctx) : List (Int × Nat) × Ctx :=
  let plantData := plantDataFor plant now
  match c.store.createPlant plantData with
  | .error msg =>
    (pm, { c with
      trace := c.trace ++ [.createPlant plantData],
      summary := { c.summary with
        warnings := c.summary.warnings ++
          ["Failed to restore plant " ++ plant.name ++ ": " ++ msg],
        plantsSkipped := c.summary.plantsSkipped + 1 } })
  | .ok (newPlant, st1) =>
    let pm1 := mapSet plant.id newPlant.id pm
    let imageRestored :=
      if jsTruthyStr plant.imageUrl && !imageFiles.isEmpty then
        restorePlantImage plant.id newPlant.id imageFiles
      else false
    let sum1 :=
      if imageRestored then
        { c.summary with imagesRestored := c.summary.imagesRestored + 1 }
      else c.summary
    (pm1, { store := st1,
            trace := c.trace ++ [.createPlant plantData],
            summary := { sum1 with plantsCreated := sum1.plantsCreated + 1 } })

/-- restorePlants, one record: in merge mode the matcher runs first; on
a match the mutable fields are updated and, when the update returned a
row, the id mapping and plantsUpdated are recorded (a falsy update
result touches no counter); without a match, or in replace mode, the
record goes down the create path. -/
def restorePlantStep (mode : ImportMode) (imageFiles : List (String × String)) (now : DateVal)
    (plant : BackupPlant) (pm : List (Int × Nat)) (c : Ctx) : List (Int × Nat) × Ctx :=
  if mode = ImportMode.merge then
    let c1 := { c with
      trace := c.trace ++ [.findPlantByDetails plant.name plant.species plant.location] }
    match c.store.findPlantByDetails plant.name plant.species plant.location with
    | some existingPlant =>
      let updateData := updateDataFor plant
      let ures := c1.store.updatePlant existingPlant.id updateData
      let c2 := { c1 with store := ures.2,
                          trace := c1.trace ++ [.updatePlant existingPlant.id updateData] }
      match ures.1 with
      | some up =>
        (mapSet plant.id up.id pm,
         { c2 with summary := { c2.summary with plantsUpdated := c2.summary.plantsUpdated + 1 } })
      | none => (pm, c2)
    | none => restorePlantCreate imageFiles now plant pm c1
  else
    restorePlantCreate imageFiles now plant pm c

def restorePlantsAux (mode : ImportMode) (imageFiles : List (String × String)) (now : DateVal) :
    List BackupPlant → List (Int × Nat) → Ctx → List (Int × Nat) × Ctx
  | [], pm, c => (pm, c)
  | plant :: rest, pm, c =>
    let r := restorePlantStep mode imageFiles now plant pm c
    restorePlantsAux mode imageFiles now rest r.1 r.2

/-- restorePlants. -/
def restorePlants (plants : List BackupPlant) (imageFiles : List (String × String))
    (mode : ImportMode) (now : DateVal) (c : Ctx) : List (Int × Nat) × Ctx :=
  restorePlantsAux mode imageFiles now plants [] c

/-- The warning recorded for a watering entry whose plant id is not in
the mapping. -/
def wateringSkipMsg (pid : Int) : String :=
  "Skipping watering history entry: plant ID " ++ toString pid ++ " not found"

/-- restoreWateringHistory, one record: the archive-local plant id is
resolved through the mapping; an absent entry — or a falsy mapped id 0,
since the source tests the lookup result for truthiness — appends a
warning and skips; otherwise the event is created under the mapped id
with the placeholder userId 0, and wateringHistoryCreated is
incremented.  The modelled create cannot fail, so the per-record catch
branch is unreachable. -/
def restoreWateringStep (entry : BackupWateringEntry) (pm : List (Int × Nat)) (c : Ctx) : Ctx :=
  match mapGet entry.plantId pm with
  | some (Nat.succ k) =>
    let wateringData : InsertWatering :=
      { plantId := Nat.succ k, wateredAt := entry.wateredAt, userId := 0 }
    { store := c.store.createWateringHistory wateringData,
      trace := c.trace ++ [.createWateringHistory wateringData],
      summary := { c.summary with
        wateringHistoryCreated := c.summary.wateringHistoryCreated + 1 } }
  | _ =>
    { c with summary := { c.summary with
        warnings := c.summary.warnings ++ [wateringSkipMsg entry.plantId] } }

def restoreWateringHistoryAux : List BackupWateringEntry → List (Int × Nat) → Ctx → Ctx
  | [], _, c => c
  | entry :: rest, pm, c => restoreWateringHistoryAux rest pm (restoreWateringStep entry pm c)

/-- restoreWateringHistory. -/
def restoreWateringHistory (entries : List BackupWateringEntry) (pm : List (Int × Nat))
    (c : Ctx) : Ctx :=
  restoreWateringHistoryAux entries pm c

/-- The safe settings object restoreNotificationSettings builds: only
the enabled flag, the two channel toggles (falsy-defaulted to false)
and the contact address; the credential fields are never read. -/
def safeSettingsFor (s : BackupNotifSettings) : SafeNotifSettings :=
  { enabled := s.enabled,
    pushoverEnabled := s.pushoverEnabled.getD false,
    emailEnabled := s.emailEnabled.getD false,
    emailAddress := s.emailAddress }

/-- restoreNotificationSettings.  The modelled update cannot fail, so
the catch branch (warning, not fatal) is unreachable. -/
def restoreNotificationSettings (s : BackupNotifSettings) (c : Ctx) : Ctx :=
  let safeSettings := safeSettingsFor s
  { store := c.store.updateNotificationSettings safeSettings,
    trace := c.trace ++ [.updateNotificationSettings safeSettings],
    summary := { c.summary with notificationSettingsUpdated := true } }

/-! ## Archive extraction -/

/-- The backup.json entry of an archive: either not parseable as JSON,
or a parsed document. -/
inductive ManifestFile where
  | invalidJson (raw : String)
  | validJson (value : Json)

/-- The contents of a readable zip: an optional backup.json entry and
the extracted image files by name. -/
structure ZipContents where
  backupFile : Option ManifestFile
  imageFiles : List (String × String)

/-- The raw archive bytes: either a container the zip library cannot
open, or a readable one. -/
inductive ZipBuffer where
  | corrupt
  | readable (contents : ZipContents)

/-- extractZipContents: fails when the container cannot be opened, when
backup.json is absent, or when its text is not JSON; otherwise returns
the parsed manifest and the image map. -/
def extractZipContents : ZipBuffer → Except String (Json × List (String × String))
  | .corrupt => .error "invalid zip archive"
  | .readable contents =>
    match contents.backupFile with
    | none => .error "backup.json not found in ZIP file"
    | some (.invalidJson _) => .error "backup.json is not valid JSON"
    | some (.validJson j) => .ok (j, contents.imageFiles)

/-- The restoration phases of importFromZipBuffer, in dependency order:
locations, then plants (threading the plant id mapping), then watering
history, then notification settings when the manifest carries them. -/
def runRestorePhases (vd : BackupData) (imageFiles : List (String × String))
    (mode : ImportMode) (now : DateVal) (c1 : Ctx) : Ctx :=
  let rLoc := restoreLocations vd.locations c1
  let c2 := rLoc.2
  let rPl := restorePlants vd.plants imageFiles mode now c2
  let c3 := rPl.2
  let c4 := restoreWateringHistory vd.wateringHistory rPl.1 c3
  match vd.notificationSettings with
  | some s => restoreNotificationSettings s c4
  | none => c4

/-- importFromZipBuffer: extraction and the strict BackupDataSchema
parse run before any storage interaction; a failure of either returns
the error with the storage state untouched and an empty call trace.
Otherwise replace mode first deletes all user data, then the
restoration phases run in dependency order and the summary is
returned.  The result carries the final storage state and the trace of
storage calls. -/
def importFromZipBuffer (zip : ZipBuffer) (mode : ImportMode) (now : DateVal) (st : Store) :
    Except String ImportSummary × Store × List StorageCall :=
  match extractZipContents zip with
  | .error e => (.error e, st, [])
  | .ok (backupJson, imageFiles) =>
    match parseBackupData backupJson with
    | .error e => (.error e, st, [])
    | .ok validatedData =>
      let c0 : Ctx := { store := st, trace := [], summary := initialSummary mode }
      let c1 :=
        if mode = ImportMode.replace then
          { c0 with store := c0.store.deleteAllUserData,
                    trace := c0.trace ++ [.deleteAllUserData] }
        else c0
      let c5 := runRestorePhases validatedData imageFiles mode now c1
      (.ok c5.summary, c5.store, c5.trace)

instance {ε α : Type} [DecidableEq ε] [DecidableEq α] : DecidableEq (Except ε α) := fun a b =>
  match a, b with
  | .ok x, .ok y =>
    match decEq x y with
    | isTrue h => isTrue (h ▸ rfl)
    | isFalse h => isFalse (fun hc => h (Except.ok.inj hc))
  | .error x, .error y =>
    match decEq x y with
    | isTrue h => isTrue (h ▸ rfl)
    | isFalse h => isFalse (fun hc => h (Except.error.inj hc))
  | .ok _, .error _ => isFalse (fun hc => Except.noConfusion hc)
  | .error _, .ok _ => isFalse (fun hc => Except.noConfusion hc)

/-! ## Concrete fixtures used by counterexamples and witnesses -/

/-- A live settings row holding credentials, to observe that imports
never touch them. -/
def seededNotif : LiveNotifSettings :=
  { enabled := true, pushoverAppToken := some "po-app-secret",
    pushoverUserKey := some "po-user-secret", pushoverEnabled := true,
    emailEnabled := false, emailAddress := some "old@example.com",
    sendgridApiKey := some "sg-secret" }

/-- An empty account: fresh id counters, no rows, seeded settings, no
injected storage failures. -/
def emptyStore : Store :=
  { nextLocationId := 1, nextPlantId := 1, nextWateringId := 1,
    locations := [], plants := [], watering := [],
    notificationSettings := seededNotif, failingPlantNames := [] }

/-- The clock value handed to the import in the concrete runs. -/
def now0 : DateVal := ⟨"2024-06-01"⟩

/-- The Fern plant record of the concrete scenario in the spec. -/
def fernJson : Json := .obj
  [("id", .num 10), ("name", .str "Fern"), ("species", .null),
   ("location", .str "Kitchen"), ("wateringFrequency", .num 7),
   ("lastWatered", .str "2024-01-01"), ("notes", .null),
   ("imageUrl", .null), ("userId", .num 1)]

/-- A plant record with the required name field missing. -/
def badPlantJson : Json := .obj
  [("id", .num 11), ("species", .null), ("location", .str "Kitchen"),
   ("wateringFrequency", .num 3), ("lastWatered", .null), ("notes", .null),
   ("imageUrl", .null), ("userId", .num 1)]

/-- The Kitchen location record of the concrete scenario. -/
def kitchenJson : Json := .obj
  [("id", .num 1), ("name", .str "Kitchen"), ("isDefault", .bool false),
   ("userId", .num 1)]

/-- The watering record of the concrete scenario. -/
def wateringJson : Json := .obj
  [("id", .num 100), ("plantId", .num 10), ("wateredAt", .str "2024-01-01")]

/-- A manifest document with the given record arrays and no
notification settings block. -/
def manifestJson (plants locations watering : List Json) : Json := .obj
  [("exportInfo", .obj
     [("version", .str "1.0"), ("exportedAt", .str "2024-01-02"),
      ("username", .str "alice")]),
   ("plants", .arr plants), ("locations", .arr locations),
   ("wateringHistory", .arr watering)]

/-- A readable archive holding the given manifest and image files. -/
def zipOf (j : Json) (images : List (String × String)) : ZipBuffer :=
  .readable { backupFile := some (.validJson j), imageFiles := images }

/-- The concrete scenario archive of the spec: one location, one plant,
one watering record. -/
def scenarioZip : ZipBuffer :=
  zipOf (manifestJson [fernJson] [kitchenJson] [wateringJson]) []

/-- The Fern record as the schema validates it. -/
def fernPlant : BackupPlant :=
  { id := 10, name := "Fern", species := none, location := "Kitchen",
    wateringFrequency := 7, lastWatered := some ⟨"2024-01-01"⟩,
    notes := none, imageUrl := none, userId := 1 }

/-- A validated plant record whose storage insert is set up to fail. -/
def cactusPlant : BackupPlant :=
  { id := 11, name := "Cactus", species := some "Cactaceae", location := "Kitchen",
    wateringFrequency := 14, lastWatered := none, notes := none,
    imageUrl := none, userId := 1 }

/-- A manifest document that also carries a notificationSettings
block. -/
def manifestJsonWithNotif (plants locations watering : List Json) (notif : Json) : Json := .obj
  [("exportInfo", .obj
     [("version", .str "1.0"), ("exportedAt", .str "2024-01-02"),
      ("username", .str "alice")]),
   ("plants", .arr plants), ("locations", .arr locations),
   ("wateringHistory", .arr watering), ("notificationSettings", notif)]

/-- A context at the start of a merge import into the empty account. -/
def ctx0 : Ctx :=
  { store := emptyStore, trace := [], summary := initialSummary ImportMode.merge }

/-- A validated archive location record flagged as default. -/
def defaultLocRecord : BackupLocation :=
  { id := 5, name := "Porch", isDefault := true, userId := 1 }

/-- The manifest of the failure-isolation scenario: one schema-valid
plant record and one with the required name missing. -/
def c1Manifest : Json := manifestJson [fernJson, badPlantJson] [kitchenJson] []

/-- The archive of the failure-isolation scenario. -/
def c1zip : ZipBuffer := zipOf c1Manifest []

/-- A validated watering record whose plant id is in no mapping. -/
def orphanEntry : BackupWateringEntry :=
  { id := 101, plantId := 99, wateredAt := ⟨"2024-01-03"⟩ }

/-- The watering record of the concrete scenario, validated. -/
def scenarioEntry : BackupWateringEntry :=
  { id := 100, plantId := 10, wateredAt := ⟨"2024-01-01"⟩ }

/-- The Fern record with a declared image. -/
def fernWithImageJson : Json := .obj
  [("id", .num 10), ("name", .str "Fern"), ("species", .null),
   ("location", .str "Kitchen"), ("wateringFrequency", .num 7),
   ("lastWatered", .str "2024-01-01"), ("notes", .null),
   ("imageUrl", .str "/uploads/10.jpg"), ("userId", .num 1)]

/-- An archive whose assets contain a file matching the plant-10-*
naming convention of the Fern record. -/
def c8zip : ZipBuffer :=
  zipOf (manifestJson [fernWithImageJson] [kitchenJson] [])
    [("plant-10-photo.jpg", "IMGDATA")]

/-- An account already holding a Fern in the Kitchen, with its own
watering frequency, notes, image and last-watered date. -/
def storeWithFern : Store :=
  { nextLocationId := 2, nextPlantId := 2, nextWateringId := 1,
    locations := [{ id := 1, name := "Kitchen", isDefault := false }],
    plants := [{ id := 1, name := "Fern", species := none, location := "Kitchen",
                 wateringFrequency := 3, lastWatered := ⟨"2023-05-05"⟩,
                 notes := some "repotted in spring", imageUrl := some "/uploads/1.jpg",
                 userId := 7 }],
    watering := [], notificationSettings := seededNotif, failingPlantNames := [] }

/-- The fields of a notificationSettings block carrying credential-like
fields next to the legitimate ones. -/
def notifSecretFields : List (String × Json) :=
  [("enabled", .bool true), ("pushoverEnabled", .bool true),
   ("emailEnabled", .bool true), ("emailAddress", .str "new@example.com"),
   ("lastUpdated", .str "2024-01-02"),
   ("pushoverAppToken", .str "stolen-app-token"),
   ("pushoverUserKey", .str "stolen-user-key"),
   ("sendgridApiKey", .str "stolen-api-key")]

/-- The fields of the same block without the credential-like fields. -/
def notifPlainFields : List (String × Json) :=
  [("enabled", .bool true), ("pushoverEnabled", .bool true),
   ("emailEnabled", .bool true), ("emailAddress", .str "new@example.com"),
   ("lastUpdated", .str "2024-01-02")]

/-- A notificationSettings block carrying credential-like fields. -/
def notifWithSecretsJson : Json := .obj notifSecretFields

/-- An archive whose notificationSettings block carries credential-like
fields. -/
def c6zip : ZipBuffer :=
  zipOf (manifestJsonWithNotif [fernJson] [kitchenJson] [wateringJson] notifWithSecretsJson) []

/-- An account as MemStorage initialises it: seeded default locations,
among them a default Kitchen, and nothing else. -/
def storeWithDefaults : Store :=
  { nextLocationId := 3, nextPlantId := 1, nextWateringId := 1,
    locations := [{ id := 1, name := "Living Room", isDefault := true },
                  { id := 2, name := "Kitchen", isDefault := true }],
    plants := [], watering := [], notificationSettings := seededNotif,
    failingPlantNames := [] }

/-- A context over the account that already holds the Fern. -/
def ctxFern : Ctx :=
  { store := storeWithFern, trace := [], summary := initialSummary ImportMode.merge }

/-- A context whose storage rejects the Cactus insert. -/
def failCtx : Ctx :=
  { store := { emptyStore with failingPlantNames := ["Cactus"] }, trace := [],
    summary := initialSummary ImportMode.replace }

/-! ## Specification predicates -/

/-- What one watering restoration pass does, as a function of the plant
id mapping: the persisted watering rows (projected to plant id, date
and user) are extended by exactly the resolvable records, each under
its mapped live plant id; exactly the unresolvable records append their
skip warning; and the created counter advances by the number of
resolvable records. -/
def wateringRestorePost (entries : List BackupWateringEntry) (pm : List (Int × Nat))
    (c c1 : Ctx) : Prop :=
  c1.store.watering.map (fun w => (w.plantId, w.wateredAt, w.userId)) =
    c.store.watering.map (fun w => (w.plantId, w.wateredAt, w.userId)) ++
      entries.filterMap (fun e => (mapGet e.plantId pm).map (fun n => (n, e.wateredAt, 0))) ∧
  c1.summary.warnings =
    c.summary.warnings ++
      (entries.filter (fun e => (mapGet e.plantId pm).isNone)).map
        (fun e => wateringSkipMsg e.plantId) ∧
  c1.summary.wateringHistoryCreated =
    c.summary.wateringHistoryCreated + (entries.filterMap (fun e => mapGet e.plantId pm)).length

/-- The destructive-call policy of one import: the delete-all call
appears in the trace exactly for the replace strategy, and when it does
it is the very first storage call, made only once. -/
def deleteCallPolicy (mode : ImportMode) (tr : List StorageCall) : Prop :=
  ((StorageCall.deleteAllUserData ∈ tr) ↔ mode = ImportMode.replace) ∧
  (mode = ImportMode.replace →
    ∃ tr0, tr = StorageCall.deleteAllUserData :: tr0 ∧ StorageCall.deleteAllUserData ∉ tr0)

/-- Some stored plant matches the given details under the plant
matcher. -/
def matchExists (st : Store) (name : String) (species : Option String) (location : String) : Prop :=
  ∃ q ∈ st.plants, plantMatches q name species location = true

/-- The credential columns of the live notification settings. -/
def credsOf (st : Store) : Option String × Option String × Option String :=
  (st.notificationSettings.pushoverAppToken,
   st.notificationSettings.pushoverUserKey,
   st.notificationSettings.sendgridApiKey)

/-! # Theorems

Shared helper lemmas first, then one theorem (with witness or
counterexample where required) per verified claim. -/

theorem mapGet_val_mem {κ ν : Type} [BEq κ] {k : κ} {l : List (κ × ν)} {v : ν}
    (h : mapGet k l = some v) : ∃ k0, (k0, v) ∈ l := by
  induction l with
  | nil => simp [mapGet] at h
  | cons kv rest ih =>
    obtain ⟨k0, v0⟩ := kv
    by_cases hk : (k0 == k) = true
    · simp only [mapGet, hk, if_true, Option.some.injEq] at h
      exact ⟨k0, by simp [h]⟩
    · simp only [mapGet, hk, if_false, Bool.false_eq_true] at h
      obtain ⟨k1, hm⟩ := ih h
      exact ⟨k1, List.mem_cons_of_mem _ hm⟩

/-- C10: an archive location record flagged as default is silently
ignored by the location restoration: the step leaves the name mapping,
the storage state, the trace, every counter and the warning list
untouched, and restoring a list that starts with such a record is the
same as restoring the remaining records. -/
theorem restoreLocations_ignores_default (loc : BackupLocation) (h : loc.isDefault = true)
    (rest : List BackupLocation) (m : List (String × String)) (c : Ctx) :
    restoreLocationStep loc m c = (m, c) ∧
    restoreLocationsAux (loc :: rest) m c = restoreLocationsAux rest m c := by
  have hstep : restoreLocationStep loc m c = (m, c) := by
    simp [restoreLocationStep, h]
  exact ⟨hstep, by rw [restoreLocationsAux, hstep]⟩

theorem restoreLocations_ignores_default_witness :
    defaultLocRecord.isDefault = true ∧
    (restoreLocationStep defaultLocRecord [] ctx0 = ([], ctx0) ∧
     restoreLocationsAux [defaultLocRecord] [] ctx0 = restoreLocationsAux [] [] ctx0) :=
  ⟨by decide, restoreLocations_ignores_default defaultLocRecord (by decide) [] [] ctx0⟩

/-- C5: when archive extraction fails (container unreadable, backup.json
absent or not JSON) or the strict top-level validation fails, the import
surfaces that error with the storage state untouched and an empty call
trace: no mutation happens and no summary with partial progress is
returned. -/
theorem importFromZipBuffer_structural_failure (zip : ZipBuffer) (mode : ImportMode)
    (now : DateVal) (st : Store) (e : String)
    (h : extractZipContents zip = Except.error e ∨
         ∃ j imgs, extractZipContents zip = Except.ok (j, imgs) ∧
           parseBackupData j = Except.error e) :
    importFromZipBuffer zip mode now st = (Except.error e, st, []) := by
  rcases h with h | ⟨j, imgs, hx, hp⟩
  · simp [importFromZipBuffer, h]
  · simp [importFromZipBuffer, hx, hp]

theorem importFromZipBuffer_structural_failure_witness :
    (extractZipContents ZipBuffer.corrupt = Except.error "invalid zip archive" ∨
     ∃ j imgs, extractZipContents ZipBuffer.corrupt = Except.ok (j, imgs) ∧
       parseBackupData j = Except.error "invalid zip archive") ∧
    importFromZipBuffer ZipBuffer.corrupt ImportMode.replace now0 emptyStore =
      (Except.error "invalid zip archive", emptyStore, []) :=
  ⟨Or.inl rfl,
   importFromZipBuffer_structural_failure ZipBuffer.corrupt ImportMode.replace now0 emptyStore
     "invalid zip archive" (Or.inl rfl)⟩

theorem restorePlantImage_always_false (oldPlantId : Int) (newPlantId : Nat)
    (imageFiles : List (String × String)) :
    restorePlantImage oldPlantId newPlantId imageFiles = false := by
  unfold restorePlantImage
  cases h : imageFiles.find?
      (fun f => strStartsWith f.1 ("plant-" ++ toString oldPlantId ++ "-")) <;> simp [h]

theorem createPlant_ok_store (st : Store) (p : InsertPlant) (res : StoredPlant × Store)
    (h : st.createPlant p = .ok res) :
    res.2 = { st with plants := st.plants ++ [res.1], nextPlantId := st.nextPlantId + 1 } ∧
    res.1 = { id := st.nextPlantId, name := p.name, species := jsOrNull p.species,
              location := p.location, wateringFrequency := p.wateringFrequency,
              lastWatered := p.lastWatered, notes := jsOrNull p.notes,
              imageUrl := p.imageUrl, userId := p.userId } ∧
    p.name ∉ st.failingPlantNames := by
  unfold Store.createPlant at h
  by_cases hmem : p.name ∈ st.failingPlantNames
  · simp [hmem] at h
  · rw [if_neg hmem] at h
    simp only [Except.ok.injEq] at h
    refine ⟨?_, ?_, hmem⟩
    · rw [← h]
    · rw [← h]

theorem createPlant_error_iff (st : Store) (p : InsertPlant) :
    (∃ msg, st.createPlant p = .error msg) ↔ p.name ∈ st.failingPlantNames := by
  unfold Store.createPlant
  by_cases hmem : p.name ∈ st.failingPlantNames
  · simp [hmem]
  · simp [hmem]

theorem updatePlant_frame (st : Store) (i : Nat) (u : PlantUpdate) :
    (st.updatePlant i u).2.locations = st.locations ∧
    (st.updatePlant i u).2.watering = st.watering ∧
    (st.updatePlant i u).2.notificationSettings = st.notificationSettings ∧
    (st.updatePlant i u).2.failingPlantNames = st.failingPlantNames ∧
    (st.updatePlant i u).2.nextLocationId = st.nextLocationId ∧
    (st.updatePlant i u).2.nextWateringId = st.nextWateringId ∧
    (st.updatePlant i u).2.nextPlantId = st.nextPlantId := by
  unfold Store.updatePlant
  cases hf : st.plants.find? (fun p => p.id == i) <;> simp [hf]

theorem upsertLocationByName_frame (st : Store) (name : String) (isDefault : Bool) :
    (st.upsertLocationByName name isDefault).2.plants = st.plants ∧
    (st.upsertLocationByName name isDefault).2.watering = st.watering ∧
    (st.upsertLocationByName name isDefault).2.notificationSettings = st.notificationSettings ∧
    (st.upsertLocationByName name isDefault).2.failingPlantNames = st.failingPlantNames ∧
    (st.upsertLocationByName name isDefault).2.nextPlantId = st.nextPlantId ∧
    (st.upsertLocationByName name isDefault).2.nextWateringId = st.nextWateringId ∧
    (∀ l ∈ st.locations, l ∈ (st.upsertLocationByName name isDefault).2.locations) := by
  unfold Store.upsertLocationByName
  cases hf : st.locations.find? (fun l => strLower l.name == strLower name) with
  | none =>
    refine ⟨by simp [hf], by simp [hf], by simp [hf], by simp [hf], by simp [hf], by simp [hf], ?_⟩
    intro l hl
    simp only [hf]
    exact List.mem_append_left _ hl
  | some l0 => simp [hf]

theorem restoreLocationStep_frame (loc : BackupLocation) (m : List (String × String)) (c : Ctx) :
    ((restoreLocationStep loc m c).2).store.plants = c.store.plants ∧
    ((restoreLocationStep loc m c).2).store.watering = c.store.watering ∧
    ((restoreLocationStep loc m c).2).store.notificationSettings = c.store.notificationSettings ∧
    ((restoreLocationStep loc m c).2).store.failingPlantNames = c.store.failingPlantNames ∧
    ((restoreLocationStep loc m c).2).store.nextPlantId = c.store.nextPlantId ∧
    ((restoreLocationStep loc m c).2).store.nextWateringId = c.store.nextWateringId ∧
    (∀ l ∈ c.store.locations, l ∈ ((restoreLocationStep loc m c).2).store.locations) ∧
    ((restoreLocationStep loc m c).2).summary.plantsCreated = c.summary.plantsCreated ∧
    ((restoreLocationStep loc m c).2).summary.plantsUpdated = c.summary.plantsUpdated ∧
    ((restoreLocationStep loc m c).2).summary.plantsSkipped = c.summary.plantsSkipped ∧
    ((restoreLocationStep loc m c).2).summary.wateringHistoryCreated =
      c.summary.wateringHistoryCreated ∧
    ((restoreLocationStep loc m c).2).summary.imagesRestored = c.summary.imagesRestored := by
  by_cases h : loc.isDefault
  · simp [restoreLocationStep, h]
  · obtain ⟨h1, h2, h3, h4, h5, h6, h7⟩ := upsertLocationByName_frame c.store loc.name false
    by_cases hex : locationExistsCheck c.store loc.name <;>
      simp [restoreLocationStep, h, hex, h1, h2, h3, h4, h5, h6] <;> exact h7

theorem restoreLocationsAux_frame (locs : List BackupLocation) (m : List (String × String))
    (c : Ctx) :
    ((restoreLocationsAux locs m c).2).store.plants = c.store.plants ∧
    ((restoreLocationsAux locs m c).2).store.watering = c.store.watering ∧
    ((restoreLocationsAux locs m c).2).store.notificationSettings = c.store.notificationSettings ∧
    ((restoreLocationsAux locs m c).2).store.failingPlantNames = c.store.failingPlantNames ∧
    ((restoreLocationsAux locs m c).2).store.nextPlantId = c.store.nextPlantId ∧
    ((restoreLocationsAux locs m c).2).store.nextWateringId = c.store.nextWateringId ∧
    (∀ l ∈ c.store.locations, l ∈ ((restoreLocationsAux locs m c).2).store.locations) ∧
    ((restoreLocationsAux locs m c).2).summary.plantsCreated = c.summary.plantsCreated ∧
    ((restoreLocationsAux locs m c).2).summary.plantsUpdated = c.summary.plantsUpdated ∧
    ((restoreLocationsAux locs m c).2).summary.plantsSkipped = c.summary.plantsSkipped ∧
    ((restoreLocationsAux locs m c).2).summary.wateringHistoryCreated =
      c.summary.wateringHistoryCreated ∧
    ((restoreLocationsAux locs m c).2).summary.imagesRestored = c.summary.imagesRestored := by
  induction locs generalizing m c with
  | nil => simp [restoreLocationsAux]
  | cons loc rest ih =>
    obtain ⟨s1, s2, s3, s4, s5, s6, s7, s8, s9, s10, s11, s12⟩ :=
      restoreLocationStep_frame loc m c
    obtain ⟨t1, t2, t3, t4, t5, t6, t7, t8, t9, t10, t11, t12⟩ :=
      ih (restoreLocationStep loc m c).1 (restoreLocationStep loc m c).2
    exact ⟨t1.trans s1, t2.trans s2, t3.trans s3, t4.trans s4, t5.trans s5, t6.trans s6,
      fun l hl => t7 l (s7 l hl), t8.trans s8, t9.trans s9, t10.trans s10,
      t11.trans s11, t12.trans s12⟩

theorem restorePlantCreate_frame (imageFiles : List (String × String)) (now : DateVal)
    (plant : BackupPlant) (pm : List (Int × Nat)) (c : Ctx) :
    ((restorePlantCreate imageFiles now plant pm c).2).store.locations = c.store.locations ∧
    ((restorePlantCreate imageFiles now plant pm c).2).store.watering = c.store.watering ∧
    ((restorePlantCreate imageFiles now plant pm c).2).store.notificationSettings =
      c.store.notificationSettings ∧
    ((restorePlantCreate imageFiles now plant pm c).2).store.failingPlantNames =
      c.store.failingPlantNames ∧
    ((restorePlantCreate imageFiles now plant pm c).2).store.nextLocationId =
      c.store.nextLocationId ∧
    ((restorePlantCreate imageFiles now plant pm c).2).store.nextWateringId =
      c.store.nextWateringId ∧
    ((restorePlantCreate imageFiles now plant pm c).2).summary.locationsCreated =
      c.summary.locationsCreated ∧
    ((restorePlantCreate imageFiles now plant pm c).2).summary.wateringHistoryCreated =
      c.summary.wateringHistoryCreated ∧
    ((restorePlantCreate imageFiles now plant pm c).2).summary.imagesRestored =
      c.summary.imagesRestored := by
  cases h : c.store.createPlant (plantDataFor plant now) with
  | error msg => simp [restorePlantCreate, h]
  | ok res =>
    obtain ⟨hst, hpl, hnm⟩ := createPlant_ok_store c.store (plantDataFor plant now) res h
    simp [restorePlantCreate, h, restorePlantImage_always_false, hst]

theorem restorePlantStep_frame (mode : ImportMode) (imageFiles : List (String × String))
    (now : DateVal) (plant : BackupPlant) (pm : List (Int × Nat)) (c : Ctx) :
    ((restorePlantStep mode imageFiles now plant pm c).2).store.locations = c.store.locations ∧
    ((restorePlantStep mode imageFiles now plant pm c).2).store.watering = c.store.watering ∧
    ((restorePlantStep mode imageFiles now plant pm c).2).store.notificationSettings =
      c.store.notificationSettings ∧
    ((restorePlantStep mode imageFiles now plant pm c).2).store.failingPlantNames =
      c.store.failingPlantNames ∧
    ((restorePlantStep mode imageFiles now plant pm c).2).store.nextLocationId =
      c.store.nextLocationId ∧
    ((restorePlantStep mode imageFiles now plant pm c).2).store.nextWateringId =
      c.store.nextWateringId ∧
    ((restorePlantStep mode imageFiles now plant pm c).2).summary.locationsCreated =
      c.summary.locationsCreated ∧
    ((restorePlantStep mode imageFiles now plant pm c).2).summary.wateringHistoryCreated =
      c.summary.wateringHistoryCreated ∧
    ((restorePlantStep mode imageFiles now plant pm c).2).summary.imagesRestored =
      c.summary.imagesRestored := by
  by_cases hmode : mode = ImportMode.merge
  · subst hmode
    cases hf : c.store.findPlantByDetails plant.name plant.species plant.location with
    | some ex =>
      obtain ⟨u1, u2, u3, u4, u5, u6, u7⟩ :=
        updatePlant_frame c.store ex.id (updateDataFor plant)
      cases hu : (c.store.updatePlant ex.id (updateDataFor plant)).1 <;>
        simp [restorePlantStep, hf, hu, u1, u2, u3, u4, u5, u6]
    | none =>
      have heq : restorePlantStep ImportMode.merge imageFiles now plant pm c =
          restorePlantCreate imageFiles now plant pm
            { c with trace := c.trace ++
                [StorageCall.findPlantByDetails plant.name plant.species plant.location] } := by
        simp [restorePlantStep, hf]
      rw [heq]
      exact restorePlantCreate_frame imageFiles now plant pm _
  · have heq : restorePlantStep mode imageFiles now plant pm c =
        restorePlantCreate imageFiles now plant pm c := by
      simp [restorePlantStep, hmode]
    rw [heq]
    exact restorePlantCreate_frame imageFiles now plant pm c

theorem restorePlantsAux_frame (mode : ImportMode) (imageFiles : List (String × String))
    (now : DateVal) (plants : List BackupPlant) (pm : List (Int × Nat)) (c : Ctx) :
    ((restorePlantsAux mode imageFiles now plants pm c).2).store.locations = c.store.locations ∧
    ((restorePlantsAux mode imageFiles now plants pm c).2).store.watering = c.store.watering ∧
    ((restorePlantsAux mode imageFiles now plants pm c).2).store.notificationSettings =
      c.store.notificationSettings ∧
    ((restorePlantsAux mode imageFiles now plants pm c).2).store.failingPlantNames =
      c.store.failingPlantNames ∧
    ((restorePlantsAux mode imageFiles now plants pm c).2).store.nextLocationId =
      c.store.nextLocationId ∧
    ((restorePlantsAux mode imageFiles now plants pm c).2).store.nextWateringId =
      c.store.nextWateringId ∧
    ((restorePlantsAux mode imageFiles now plants pm c).2).summary.locationsCreated =
      c.summary.locationsCreated ∧
    ((restorePlantsAux mode imageFiles now plants pm c).2).summary.wateringHistoryCreated =
      c.summary.wateringHistoryCreated ∧
    ((restorePlantsAux mode imageFiles now plants pm c).2).summary.imagesRestored =
      c.summary.imagesRestored := by
  induction plants generalizing pm c with
  | nil => simp [restorePlantsAux]
  | cons plant rest ih =>
    obtain ⟨s1, s2, s3, s4, s5, s6, s7, s8, s9⟩ :=
      restorePlantStep_frame mode imageFiles now plant pm c
    obtain ⟨t1, t2, t3, t4, t5, t6, t7, t8, t9⟩ :=
      ih (restorePlantStep mode imageFiles now plant pm c).1
        (restorePlantStep mode imageFiles now plant pm c).2
    exact ⟨t1.trans s1, t2.trans s2, t3.trans s3, t4.trans s4, t5.trans s5, t6.trans s6,
      t7.trans s7, t8.trans s8, t9.trans s9⟩

theorem restoreWateringStep_frame (e : BackupWateringEntry) (pm : List (Int × Nat)) (c : Ctx) :
    (restoreWateringStep e pm c).store.locations = c.store.locations ∧
    (restoreWateringStep e pm c).store.plants = c.store.plants ∧
    (restoreWateringStep e pm c).store.notificationSettings = c.store.notificationSettings ∧
    (restoreWateringStep e pm c).store.failingPlantNames = c.store.failingPlantNames ∧
    (restoreWateringStep e pm c).store.nextLocationId = c.store.nextLocationId ∧
    (restoreWateringStep e pm c).store.nextPlantId = c.store.nextPlantId ∧
    (restoreWateringStep e pm c).summary.locationsCreated = c.summary.locationsCreated ∧
    (restoreWateringStep e pm c).summary.plantsCreated = c.summary.plantsCreated ∧
    (restoreWateringStep e pm c).summary.plantsUpdated = c.summary.plantsUpdated ∧
    (restoreWateringStep e pm c).summary.plantsSkipped = c.summary.plantsSkipped ∧
    (restoreWateringStep e pm c).summary.imagesRestored = c.summary.imagesRestored := by
  cases hm : mapGet e.plantId pm with
  | none => simp [restoreWateringStep, hm]
  | some v =>
    cases v with
    | zero => simp [restoreWateringStep, hm]
    | succ k => simp [restoreWateringStep, hm, Store.createWateringHistory]

theorem restoreWateringHistoryAux_frame (entries : List BackupWateringEntry)
    (pm : List (Int × Nat)) (c : Ctx) :
    (restoreWateringHistoryAux entries pm c).store.locations = c.store.locations ∧
    (restoreWateringHistoryAux entries pm c).store.plants = c.store.plants ∧
    (restoreWateringHistoryAux entries pm c).store.notificationSettings =
      c.store.notificationSettings ∧
    (restoreWateringHistoryAux entries pm c).store.failingPlantNames =
      c.store.failingPlantNames ∧
    (restoreWateringHistoryAux entries pm c).store.nextLocationId = c.store.nextLocationId ∧
    (restoreWateringHistoryAux entries pm c).store.nextPlantId = c.store.nextPlantId ∧
    (restoreWateringHistoryAux entries pm c).summary.locationsCreated =
      c.summary.locationsCreated ∧
    (restoreWateringHistoryAux entries pm c).summary.plantsCreated = c.summary.plantsCreated ∧
    (restoreWateringHistoryAux entries pm c).summary.plantsUpdated = c.summary.plantsUpdated ∧
    (restoreWateringHistoryAux entries pm c).summary.plantsSkipped = c.summary.plantsSkipped ∧
    (restoreWateringHistoryAux entries pm c).summary.imagesRestored =
      c.summary.imagesRestored := by
  induction entries generalizing c with
  | nil => simp [restoreWateringHistoryAux]
  | cons e rest ih =>
    obtain ⟨s1, s2, s3, s4, s5, s6, s7, s8, s9, s10, s11⟩ := restoreWateringStep_frame e pm c
    obtain ⟨t1, t2, t3, t4, t5, t6, t7, t8, t9, t10, t11⟩ := ih (restoreWateringStep e pm c)
    exact ⟨t1.trans s1, t2.trans s2, t3.trans s3, t4.trans s4, t5.trans s5, t6.trans s6,
      t7.trans s7, t8.trans s8, t9.trans s9, t10.trans s10, t11.trans s11⟩

theorem restoreNotificationSettings_frame (s : BackupNotifSettings) (c : Ctx) :
    (restoreNotificationSettings s c).store.locations = c.store.locations ∧
    (restoreNotificationSettings s c).store.plants = c.store.plants ∧
    (restoreNotificationSettings s c).store.watering = c.store.watering ∧
    (restoreNotificationSettings s c).store.failingPlantNames = c.store.failingPlantNames ∧
    (restoreNotificationSettings s c).store.notificationSettings.pushoverAppToken =
      c.store.notificationSettings.pushoverAppToken ∧
    (restoreNotificationSettings s c).store.notificationSettings.pushoverUserKey =
      c.store.notificationSettings.pushoverUserKey ∧
    (restoreNotificationSettings s c).store.notificationSettings.sendgridApiKey =
      c.store.notificationSettings.sendgridApiKey ∧
    (restoreNotificationSettings s c).summary.locationsCreated = c.summary.locationsCreated ∧
    (restoreNotificationSettings s c).summary.plantsCreated = c.summary.plantsCreated ∧
    (restoreNotificationSettings s c).summary.plantsUpdated = c.summary.plantsUpdated ∧
    (restoreNotificationSettings s c).summary.plantsSkipped = c.summary.plantsSkipped ∧
    (restoreNotificationSettings s c).summary.wateringHistoryCreated =
      c.summary.wateringHistoryCreated ∧
    (restoreNotificationSettings s c).summary.imagesRestored = c.summary.imagesRestored := by
  simp [restoreNotificationSettings, Store.updateNotificationSettings]

theorem runRestorePhases_creds (vd : BackupData) (imageFiles : List (String × String))
    (mode : ImportMode) (now : DateVal) (c : Ctx) :
    (runRestorePhases vd imageFiles mode now c).store.notificationSettings.pushoverAppToken =
      c.store.notificationSettings.pushoverAppToken ∧
    (runRestorePhases vd imageFiles mode now c).store.notificationSettings.pushoverUserKey =
      c.store.notificationSettings.pushoverUserKey ∧
    (runRestorePhases vd imageFiles mode now c).store.notificationSettings.sendgridApiKey =
      c.store.notificationSettings.sendgridApiKey := by
  obtain ⟨-, -, hl, -, -, -, -, -, -, -, -, -⟩ := restoreLocationsAux_frame vd.locations [] c
  obtain ⟨-, -, hp, -, -, -, -, -, -⟩ := restorePlantsAux_frame mode imageFiles now vd.plants []
    (restoreLocationsAux vd.locations [] c).2
  obtain ⟨-, -, hw, -, -, -, -, -, -, -, -⟩ := restoreWateringHistoryAux_frame vd.wateringHistory
    (restorePlantsAux mode imageFiles now vd.plants [] (restoreLocationsAux vd.locations [] c).2).1
    (restorePlantsAux mode imageFiles now vd.plants [] (restoreLocationsAux vd.locations [] c).2).2
  cases hns : vd.notificationSettings with
  | none =>
    rw [runRestorePhases]
    simp only [hns, restoreLocations, restorePlants, restoreWateringHistory]
    rw [hw, hp, hl]
    exact ⟨rfl, rfl, rfl⟩
  | some s =>
    obtain ⟨-, -, -, -, n1, n2, n3, -, -, -, -, -, -⟩ :=
      restoreNotificationSettings_frame s
        (restoreWateringHistoryAux vd.wateringHistory
          (restorePlantsAux mode imageFiles now vd.plants []
            (restoreLocationsAux vd.locations [] c).2).1
          (restorePlantsAux mode imageFiles now vd.plants []
            (restoreLocationsAux vd.locations [] c).2).2)
    rw [runRestorePhases]
    simp only [hns, restoreLocations, restorePlants, restoreWateringHistory]
    refine ⟨?_, ?_, ?_⟩
    · rw [n1, hw, hp, hl]
    · rw [n2, hw, hp, hl]
    · rw [n3, hw, hp, hl]

/-- C6: credential material never moves from the archive to the live
preferences.  First, whatever archive is imported, the stored
credential columns (pushover app token, pushover user key, sendgrid
api key) keep their prior values.  Second, parsing a
notificationSettings block reads only the five schema fields, so two
blocks agreeing on enabled, the channel toggles, the contact address
and the timestamp — one of them stuffed with credential-like keys —
validate identically: the extra fields cannot influence anything
downstream. -/
theorem importFromZipBuffer_no_credential_leak (zip : ZipBuffer) (mode : ImportMode)
    (now : DateVal) (st : Store) (f g : List (String × Json))
    (h1 : (Json.obj f).getField "enabled" = (Json.obj g).getField "enabled")
    (h2 : (Json.obj f).getField "pushoverEnabled" = (Json.obj g).getField "pushoverEnabled")
    (h3 : (Json.obj f).getField "emailEnabled" = (Json.obj g).getField "emailEnabled")
    (h4 : (Json.obj f).getField "emailAddress" = (Json.obj g).getField "emailAddress")
    (h5 : (Json.obj f).getField "lastUpdated" = (Json.obj g).getField "lastUpdated") :
    (((importFromZipBuffer zip mode now st).2.1).notificationSettings.pushoverAppToken =
        st.notificationSettings.pushoverAppToken ∧
     ((importFromZipBuffer zip mode now st).2.1).notificationSettings.pushoverUserKey =
        st.notificationSettings.pushoverUserKey ∧
     ((importFromZipBuffer zip mode now st).2.1).notificationSettings.sendgridApiKey =
        st.notificationSettings.sendgridApiKey) ∧
    parseBackupNotifSettings (Json.obj f) = parseBackupNotifSettings (Json.obj g) := by
  constructor
  · cases hx : extractZipContents zip with
    | error e => simp [importFromZipBuffer, hx]
    | ok p =>
      cases hp : parseBackupData p.1 with
      | error e => simp [importFromZipBuffer, hx, hp]
      | ok vd =>
        cases mode with
        | merge =>
          obtain ⟨q1, q2, q3⟩ := runRestorePhases_creds vd p.2 ImportMode.merge now
            { store := st, trace := [], summary := initialSummary ImportMode.merge }
          simp only [importFromZipBuffer, hx, hp, List.nil_append]
          rw [if_neg (by decide : ¬(ImportMode.merge = ImportMode.replace))]
          exact ⟨q1, q2, q3⟩
        | replace =>
          obtain ⟨q1, q2, q3⟩ := runRestorePhases_creds vd p.2 ImportMode.replace now
            { store := Store.deleteAllUserData st, trace := [StorageCall.deleteAllUserData],
              summary := initialSummary ImportMode.replace }
          simp only [importFromZipBuffer, hx, hp, List.nil_append, if_true]
          exact ⟨q1.trans rfl, q2.trans rfl, q3.trans rfl⟩
  · unfold parseBackupNotifSettings
    rw [h1, h2, h3, h4, h5]

theorem importFromZipBuffer_no_credential_leak_witness :
    ((Json.obj notifSecretFields).getField "enabled" =
        (Json.obj notifPlainFields).getField "enabled" ∧
     (Json.obj notifSecretFields).getField "pushoverEnabled" =
        (Json.obj notifPlainFields).getField "pushoverEnabled" ∧
     (Json.obj notifSecretFields).getField "emailEnabled" =
        (Json.obj notifPlainFields).getField "emailEnabled" ∧
     (Json.obj notifSecretFields).getField "emailAddress" =
        (Json.obj notifPlainFields).getField "emailAddress" ∧
     (Json.obj notifSecretFields).getField "lastUpdated" =
        (Json.obj notifPlainFields).getField "lastUpdated") ∧
    ((((importFromZipBuffer c6zip ImportMode.merge now0 emptyStore).2.1).notificationSettings.pushoverAppToken =
        emptyStore.notificationSettings.pushoverAppToken ∧
      ((importFromZipBuffer c6zip ImportMode.merge now0 emptyStore).2.1).notificationSettings.pushoverUserKey =
        emptyStore.notificationSettings.pushoverUserKey ∧
      ((importFromZipBuffer c6zip ImportMode.merge now0 emptyStore).2.1).notificationSettings.sendgridApiKey =
        emptyStore.notificationSettings.sendgridApiKey) ∧
     parseBackupNotifSettings (Json.obj notifSecretFields) =
        parseBackupNotifSettings (Json.obj notifPlainFields)) :=
  ⟨⟨rfl, rfl, rfl, rfl, rfl⟩,
   importFromZipBuffer_no_credential_leak c6zip ImportMode.merge now0 emptyStore
     notifSecretFields notifPlainFields rfl rfl rfl rfl rfl⟩

theorem restoreLocationStep_trace (loc : BackupLocation) (m : List (String × String)) (c : Ctx) :
    ∃ d, ((restoreLocationStep loc m c).2).trace = c.trace ++ d ∧
      StorageCall.deleteAllUserData ∉ d := by
  by_cases h : loc.isDefault
  · exact ⟨[], by simp [restoreLocationStep, h], by simp⟩
  · exact ⟨[StorageCall.getAllLocations, StorageCall.upsertLocationByName loc.name false],
      by simp [restoreLocationStep, h], by simp⟩

theorem restoreLocationsAux_trace (locs : List BackupLocation) (m : List (String × String))
    (c : Ctx) :
    ∃ d, ((restoreLocationsAux locs m c).2).trace = c.trace ++ d ∧
      StorageCall.deleteAllUserData ∉ d := by
  induction locs generalizing m c with
  | nil => exact ⟨[], by simp [restoreLocationsAux], by simp⟩
  | cons loc rest ih =>
    obtain ⟨d1, hd1, hn1⟩ := restoreLocationStep_trace loc m c
    obtain ⟨d2, hd2, hn2⟩ := ih (restoreLocationStep loc m c).1 (restoreLocationStep loc m c).2
    refine ⟨d1 ++ d2, ?_, ?_⟩
    · show ((restoreLocationsAux rest (restoreLocationStep loc m c).1
          (restoreLocationStep loc m c).2).2).trace = _
      rw [hd2, hd1, List.append_assoc]
    · simp only [List.mem_append]
      rintro (h | h)
      · exact hn1 h
      · exact hn2 h

theorem restorePlantCreate_trace (imageFiles : List (String × String)) (now : DateVal)
    (plant : BackupPlant) (pm : List (Int × Nat)) (c : Ctx) :
    ∃ d, ((restorePlantCreate imageFiles now plant pm c).2).trace = c.trace ++ d ∧
      StorageCall.deleteAllUserData ∉ d := by
  refine ⟨[StorageCall.createPlant (plantDataFor plant now)], ?_, by simp⟩
  cases h : c.store.createPlant (plantDataFor plant now) with
  | error msg => simp [restorePlantCreate, h]
  | ok res => simp [restorePlantCreate, h]

theorem restorePlantStep_trace (mode : ImportMode) (imageFiles : List (String × String))
    (now : DateVal) (plant : BackupPlant) (pm : List (Int × Nat)) (c : Ctx) :
    ∃ d, ((restorePlantStep mode imageFiles now plant pm c).2).trace = c.trace ++ d ∧
      StorageCall.deleteAllUserData ∉ d := by
  by_cases hmode : mode = ImportMode.merge
  · subst hmode
    cases hf : c.store.findPlantByDetails plant.name plant.species plant.location with
    | some ex =>
      refine ⟨[StorageCall.findPlantByDetails plant.name plant.species plant.location,
               StorageCall.updatePlant ex.id (updateDataFor plant)], ?_, by simp⟩
      cases hu : (Store.updatePlant { c with
          trace := c.trace ++ [StorageCall.findPlantByDetails plant.name plant.species plant.location] }.store
          ex.id (updateDataFor plant)).1 with
      | some up => simp [restorePlantStep, hf, hu]
      | none => simp [restorePlantStep, hf, hu]
    | none =>
      obtain ⟨d, hd, hn⟩ := restorePlantCreate_trace imageFiles now plant pm
        { c with trace := c.trace ++
            [StorageCall.findPlantByDetails plant.name plant.species plant.location] }
      refine ⟨StorageCall.findPlantByDetails plant.name plant.species plant.location :: d, ?_, ?_⟩
      · have : (restorePlantStep ImportMode.merge imageFiles now plant pm c) =
            restorePlantCreate imageFiles now plant pm
              { c with trace := c.trace ++
                  [StorageCall.findPlantByDetails plant.name plant.species plant.location] } := by
          simp [restorePlantStep, hf]
        rw [this, hd]
        simp
      · simp only [List.mem_cons]
        rintro (h | h)
        · exact absurd h (by simp)
        · exact hn h
  · obtain ⟨d, hd, hn⟩ := restorePlantCreate_trace imageFiles now plant pm c
    refine ⟨d, ?_, hn⟩
    have : restorePlantStep mode imageFiles now plant pm c =
        restorePlantCreate imageFiles now plant pm c := by
      simp [restorePlantStep, hmode]
    rw [this, hd]

theorem restorePlantsAux_trace (mode : ImportMode) (imageFiles : List (String × String))
    (now : DateVal) (plants : List BackupPlant) (pm : List (Int × Nat)) (c : Ctx) :
    ∃ d, ((restorePlantsAux mode imageFiles now plants pm c).2).trace = c.trace ++ d ∧
      StorageCall.deleteAllUserData ∉ d := by
  induction plants generalizing pm c with
  | nil => exact ⟨[], by simp [restorePlantsAux], by simp⟩
  | cons plant rest ih =>
    obtain ⟨d1, hd1, hn1⟩ := restorePlantStep_trace mode imageFiles now plant pm c
    obtain ⟨d2, hd2, hn2⟩ := ih (restorePlantStep mode imageFiles now plant pm c).1
      (restorePlantStep mode imageFiles now plant pm c).2
    refine ⟨d1 ++ d2, ?_, ?_⟩
    · show ((restorePlantsAux mode imageFiles now rest
          (restorePlantStep mode imageFiles now plant pm c).1
          (restorePlantStep mode imageFiles now plant pm c).2).2).trace = _
      rw [hd2, hd1, List.append_assoc]
    · simp only [List.mem_append]
      rintro (h | h)
      · exact hn1 h
      · exact hn2 h

theorem restoreWateringStep_trace (e : BackupWateringEntry) (pm : List (Int × Nat)) (c : Ctx) :
    ∃ d, (restoreWateringStep e pm c).trace = c.trace ++ d ∧
      StorageCall.deleteAllUserData ∉ d := by
  cases hm : mapGet e.plantId pm with
  | none => exact ⟨[], by simp [restoreWateringStep, hm], by simp⟩
  | some v =>
    cases v with
    | zero => exact ⟨[], by simp [restoreWateringStep, hm], by simp⟩
    | succ k =>
      exact ⟨[StorageCall.createWateringHistory
          { plantId := Nat.succ k, wateredAt := e.wateredAt, userId := 0 }],
        by simp [restoreWateringStep, hm], by simp⟩

theorem restoreWateringHistoryAux_trace (entries : List BackupWateringEntry)
    (pm : List (Int × Nat)) (c : Ctx) :
    ∃ d, (restoreWateringHistoryAux entries pm c).trace = c.trace ++ d ∧
      StorageCall.deleteAllUserData ∉ d := by
  induction entries generalizing c with
  | nil => exact ⟨[], by simp [restoreWateringHistoryAux], by simp⟩
  | cons e rest ih =>
    obtain ⟨d1, hd1, hn1⟩ := restoreWateringStep_trace e pm c
    obtain ⟨d2, hd2, hn2⟩ := ih (restoreWateringStep e pm c)
    refine ⟨d1 ++ d2, ?_, ?_⟩
    · show (restoreWateringHistoryAux rest pm (restoreWateringStep e pm c)).trace = _
      rw [hd2, hd1, List.append_assoc]
    · simp only [List.mem_append]
      rintro (h | h)
      · exact hn1 h
      · exact hn2 h

theorem runRestorePhases_trace (vd : BackupData) (imageFiles : List (String × String))
    (mode : ImportMode) (now : DateVal) (c : Ctx) :
    ∃ d, (runRestorePhases vd imageFiles mode now c).trace = c.trace ++ d ∧
      StorageCall.deleteAllUserData ∉ d := by
  obtain ⟨d1, hd1, hn1⟩ := restoreLocationsAux_trace vd.locations [] c
  obtain ⟨d2, hd2, hn2⟩ := restorePlantsAux_trace mode imageFiles now vd.plants []
    (restoreLocationsAux vd.locations [] c).2
  obtain ⟨d3, hd3, hn3⟩ := restoreWateringHistoryAux_trace vd.wateringHistory
    (restorePlantsAux mode imageFiles now vd.plants [] (restoreLocationsAux vd.locations [] c).2).1
    (restorePlantsAux mode imageFiles now vd.plants [] (restoreLocationsAux vd.locations [] c).2).2
  cases hns : vd.notificationSettings with
  | none =>
    refine ⟨d1 ++ (d2 ++ d3), ?_, ?_⟩
    · rw [runRestorePhases]
      simp only [hns, restoreLocations, restorePlants, restoreWateringHistory]
      rw [hd3, hd2, hd1]
      simp [List.append_assoc]
    · simp only [List.mem_append]
      rintro (h | h | h)
      · exact hn1 h
      · exact hn2 h
      · exact hn3 h
  | some s =>
    refine ⟨d1 ++ (d2 ++ (d3 ++ [StorageCall.updateNotificationSettings (safeSettingsFor s)])),
      ?_, ?_⟩
    · rw [runRestorePhases]
      simp only [hns, restoreLocations, restorePlants, restoreWateringHistory,
        restoreNotificationSettings]
      rw [hd3, hd2, hd1]
      simp [List.append_assoc]
    · simp only [List.mem_append, List.mem_singleton]
      rintro (h | h | h | h)
      · exact hn1 h
      · exact hn2 h
      · exact hn3 h
      · exact absurd h (by simp)

/-- C3: in a completed import the delete-all storage call appears in
the trace exactly when the strategy is replace, and then as the very
first call, once — so it precedes every create and update of
that import run; in merge mode nothing is ever deleted. -/
theorem importFromZipBuffer_delete_policy (zip : ZipBuffer) (mode : ImportMode)
    (now : DateVal) (st : Store)
    (h : (importFromZipBuffer zip mode now st).1.isOk = true) :
    deleteCallPolicy mode ((importFromZipBuffer zip mode now st).2.2) := by
  cases hx : extractZipContents zip with
  | error e => simp [importFromZipBuffer, hx, Except.isOk, Except.toBool] at h
  | ok p =>
    cases hp : parseBackupData p.1 with
    | error e =>
      simp only [importFromZipBuffer, hx, hp] at h
      simp [Except.isOk, Except.toBool] at h
    | ok vd =>
      cases mode with
      | merge =>
        obtain ⟨d, hd, hn⟩ := runRestorePhases_trace vd p.2 ImportMode.merge now
          { store := st, trace := [], summary := initialSummary ImportMode.merge }
        simp only [importFromZipBuffer, hx, hp, List.nil_append]
        rw [if_neg (by decide : ¬(ImportMode.merge = ImportMode.replace))]
        rw [hd]
        simp only [List.nil_append]
        refine ⟨⟨fun hmem => absurd hmem hn, fun hc => absurd hc (by decide)⟩,
          fun hc => absurd hc (by decide)⟩
      | replace =>
        obtain ⟨d, hd, hn⟩ := runRestorePhases_trace vd p.2 ImportMode.replace now
          { store := Store.deleteAllUserData st, trace := [StorageCall.deleteAllUserData],
            summary := initialSummary ImportMode.replace }
        simp only [importFromZipBuffer, hx, hp, List.nil_append, if_true]
        rw [hd]
        constructor
        · simp
        · intro _
          exact ⟨d, by simp, hn⟩

theorem importFromZipBuffer_delete_policy_witness :
    ((importFromZipBuffer scenarioZip ImportMode.replace now0 emptyStore).1.isOk = true) ∧
    deleteCallPolicy ImportMode.replace
      ((importFromZipBuffer scenarioZip ImportMode.replace now0 emptyStore).2.2) :=
  ⟨by decide,
   importFromZipBuffer_delete_policy scenarioZip ImportMode.replace now0 emptyStore (by decide)⟩

/-- C2: a watering record is persisted exactly when its archive-local
plant id resolves through the plant IdentifierMap (whose live ids are
nonzero), and every created entry carries the mapped live id, never the
archive-local one; an unresolvable record is skipped with a warning and
no row. -/
theorem restoreWateringHistory_resolves_ids (entries : List BackupWateringEntry)
    (pm : List (Int × Nat)) (c : Ctx) (h : ∀ kv ∈ pm, Prod.snd kv ≠ 0) :
    wateringRestorePost entries pm c (restoreWateringHistoryAux entries pm c) := by
  induction entries generalizing c with
  | nil => simp [wateringRestorePost, restoreWateringHistoryAux]
  | cons e rest ih =>
    have haux : restoreWateringHistoryAux (e :: rest) pm c =
        restoreWateringHistoryAux rest pm (restoreWateringStep e pm c) := rfl
    cases hm : mapGet e.plantId pm with
    | none =>
      have hs1 : (restoreWateringStep e pm c).store = c.store := by
        simp [restoreWateringStep, hm]
      have hs2 : (restoreWateringStep e pm c).summary.warnings =
          c.summary.warnings ++ [wateringSkipMsg e.plantId] := by
        simp [restoreWateringStep, hm]
      have hs3 : (restoreWateringStep e pm c).summary.wateringHistoryCreated =
          c.summary.wateringHistoryCreated := by
        simp [restoreWateringStep, hm]
      obtain ⟨h1, h2, h3⟩ := ih (restoreWateringStep e pm c)
      refine ⟨?_, ?_, ?_⟩ <;> rw [haux]
      · rw [h1, hs1]; simp [List.filterMap_cons, hm]
      · rw [h2, hs2]; simp [List.filter_cons, hm]
      · rw [h3, hs3]; simp [List.filterMap_cons, hm]
    | some v =>
      have hv : v ≠ 0 := by
        obtain ⟨k0, hmem⟩ := mapGet_val_mem hm
        exact h (k0, v) hmem
      obtain ⟨k, rfl⟩ : ∃ k, v = Nat.succ k := by
        cases v with
        | zero => exact absurd rfl hv
        | succ k => exact ⟨k, rfl⟩
      have hs1 : (restoreWateringStep e pm c).store.watering =
          c.store.watering ++
            [{ id := c.store.nextWateringId, plantId := Nat.succ k,
               wateredAt := e.wateredAt, userId := 0 }] := by
        simp [restoreWateringStep, hm, Store.createWateringHistory]
      have hs2 : (restoreWateringStep e pm c).summary.warnings = c.summary.warnings := by
        simp [restoreWateringStep, hm]
      have hs3 : (restoreWateringStep e pm c).summary.wateringHistoryCreated =
          c.summary.wateringHistoryCreated + 1 := by
        simp [restoreWateringStep, hm]
      obtain ⟨h1, h2, h3⟩ := ih (restoreWateringStep e pm c)
      refine ⟨?_, ?_, ?_⟩ <;> rw [haux]
      · rw [h1, hs1]; simp [List.filterMap_cons, hm]
      · rw [h2, hs2]; simp [List.filter_cons, hm]
      · rw [h3, hs3]; simp [List.filterMap_cons, hm]; omega

theorem restoreWateringHistory_resolves_ids_witness :
    (∀ kv ∈ [((10 : Int), (1 : Nat))], Prod.snd kv ≠ 0) ∧
    wateringRestorePost [scenarioEntry, orphanEntry] [((10 : Int), (1 : Nat))] ctx0
      (restoreWateringHistoryAux [scenarioEntry, orphanEntry] [((10 : Int), (1 : Nat))] ctx0) :=
  ⟨by decide,
   restoreWateringHistory_resolves_ids [scenarioEntry, orphanEntry]
     [((10 : Int), (1 : Nat))] ctx0 (by decide)⟩

theorem runRestorePhases_imagesRestored (vd : BackupData) (imageFiles : List (String × String))
    (mode : ImportMode) (now : DateVal) (c : Ctx) :
    (runRestorePhases vd imageFiles mode now c).summary.imagesRestored =
      c.summary.imagesRestored := by
  obtain ⟨-, -, -, -, -, -, -, -, -, -, -, hl⟩ := restoreLocationsAux_frame vd.locations [] c
  obtain ⟨-, -, -, -, -, -, -, -, hp⟩ := restorePlantsAux_frame mode imageFiles now vd.plants []
    (restoreLocationsAux vd.locations [] c).2
  obtain ⟨-, -, -, -, -, -, -, -, -, -, hw⟩ := restoreWateringHistoryAux_frame vd.wateringHistory
    (restorePlantsAux mode imageFiles now vd.plants [] (restoreLocationsAux vd.locations [] c).2).1
    (restorePlantsAux mode imageFiles now vd.plants [] (restoreLocationsAux vd.locations [] c).2).2
  cases hns : vd.notificationSettings with
  | none =>
    rw [runRestorePhases]
    simp only [hns, restoreLocations, restorePlants, restoreWateringHistory]
    rw [hw, hp, hl]
  | some s =>
    obtain ⟨-, -, -, -, -, -, -, -, -, -, -, -, hn⟩ :=
      restoreNotificationSettings_frame s
        (restoreWateringHistoryAux vd.wateringHistory
          (restorePlantsAux mode imageFiles now vd.plants []
            (restoreLocationsAux vd.locations [] c).2).1
          (restorePlantsAux mode imageFiles now vd.plants []
            (restoreLocationsAux vd.locations [] c).2).2)
    rw [runRestorePhases]
    simp only [hns, restoreLocations, restorePlants, restoreWateringHistory]
    rw [hn, hw, hp, hl]

/-- C8 counterexample: the concrete import of an archive whose plant
declares an image and whose assets contain a file following the
plant-10-* naming convention still restores nothing: the summary counts
zero images and the created plant keeps a null imageUrl. -/
theorem plant_image_not_restored_cex :
    (strStartsWith "plant-10-photo.jpg" "plant-10-" = true) ∧
    (jsTruthyStr (some "/uploads/10.jpg") = true) ∧
    ((importFromZipBuffer c8zip ImportMode.merge now0 emptyStore).1.map
        (fun s => s.imagesRestored) = Except.ok 0) ∧
    (((importFromZipBuffer c8zip ImportMode.merge now0 emptyStore).2.1).plants.map
        (fun p => p.imageUrl) = [none]) := by
  refine ⟨by decide, by decide, ?_, ?_⟩ <;> rfl

/-- C8 (amended): the asset lookup exists but the upload path is not
implemented: restorePlantImage returns false on every input, and every
completed import reports imagesRestored = 0 — no asset is ever
persisted or attached. -/
theorem plant_images_never_restored (zip : ZipBuffer) (mode : ImportMode) (now : DateVal)
    (st : Store) (s : ImportSummary)
    (h : (importFromZipBuffer zip mode now st).1 = Except.ok s) :
    (∀ oldId newId files, restorePlantImage oldId newId files = false) ∧
    s.imagesRestored = 0 := by
  refine ⟨fun oldId newId files => restorePlantImage_always_false oldId newId files, ?_⟩
  cases hx : extractZipContents zip with
  | error e => simp [importFromZipBuffer, hx] at h
  | ok p =>
    cases hp : parseBackupData p.1 with
    | error e =>
      simp only [importFromZipBuffer, hx, hp] at h
      simp at h
    | ok vd =>
      cases mode with
      | merge =>
        simp only [importFromZipBuffer, hx, hp, List.nil_append] at h
        rw [if_neg (by decide : ¬(ImportMode.merge = ImportMode.replace))] at h
        simp only [Except.ok.injEq] at h
        rw [← h, runRestorePhases_imagesRestored]
        rfl
      | replace =>
        simp only [importFromZipBuffer, hx, hp, List.nil_append, if_true] at h
        simp only [Except.ok.injEq] at h
        rw [← h, runRestorePhases_imagesRestored]
        rfl

theorem plant_images_never_restored_witness :
    ((importFromZipBuffer c8zip ImportMode.merge now0 emptyStore).1 =
      Except.ok { mode := ImportMode.merge, plantsCreated := 1, plantsUpdated := 0,
                  plantsSkipped := 0, locationsCreated := 1, wateringHistoryCreated := 0,
                  imagesRestored := 0, notificationSettingsUpdated := false, warnings := [] }) ∧
    ((∀ oldId newId files, restorePlantImage oldId newId files = false) ∧
     ImportSummary.imagesRestored
       { mode := ImportMode.merge, plantsCreated := 1, plantsUpdated := 0,
         plantsSkipped := 0, locationsCreated := 1, wateringHistoryCreated := 0,
         imagesRestored := 0, notificationSettingsUpdated := false, warnings := [] } = 0) :=
  ⟨by decide,
   plant_images_never_restored c8zip ImportMode.merge now0 emptyStore _ (by decide)⟩

/-- C9 counterexample: a merge match with an archive record that
carries a lastWatered date overwrites the stored lastWatered — the
update does not restrict itself to wateringFrequency and notes. -/
theorem merge_update_changes_lastWatered_cex :
    (((importFromZipBuffer scenarioZip ImportMode.merge now0 storeWithFern).2.1).plants.map
        (fun p => p.lastWatered) = [⟨"2024-01-01"⟩]) ∧
    (storeWithFern.plants.map (fun p => p.lastWatered) = [⟨"2023-05-05"⟩]) := by
  refine ⟨?_, by decide⟩ <;> rfl

/-- C9 (amended): on a merge match the update payload carries exactly
wateringFrequency, notes and — when present in the archive record —
lastWatered: across the whole plant table, id, name, species, location,
imageUrl and userId are untouched; wateringFrequency and notes of the
matched row take the archive values and lastWatered keeps its stored
value precisely when the archive record has none. -/
theorem merge_update_field_frame (imageFiles : List (String × String)) (now : DateVal)
    (plant : BackupPlant) (pm : List (Int × Nat)) (c : Ctx) (ex : StoredPlant)
    (hfind : c.store.findPlantByDetails plant.name plant.species plant.location = some ex) :
    ((restorePlantStep ImportMode.merge imageFiles now plant pm c).2).store.plants.map
        (fun p => (p.id, p.name, p.species, p.location, p.imageUrl, p.userId)) =
      c.store.plants.map (fun p => (p.id, p.name, p.species, p.location, p.imageUrl, p.userId)) ∧
    ((restorePlantStep ImportMode.merge imageFiles now plant pm c).2).store.plants.map
        (fun p => p.wateringFrequency) =
      c.store.plants.map (fun p =>
        if p.id == ex.id then plant.wateringFrequency else p.wateringFrequency) ∧
    ((restorePlantStep ImportMode.merge imageFiles now plant pm c).2).store.plants.map
        (fun p => p.notes) =
      c.store.plants.map (fun p => if p.id == ex.id then plant.notes else p.notes) ∧
    ((restorePlantStep ImportMode.merge imageFiles now plant pm c).2).store.plants.map
        (fun p => p.lastWatered) =
      c.store.plants.map (fun p =>
        if p.id == ex.id then plant.lastWatered.getD p.lastWatered else p.lastWatered) := by
  have hmem : ex ∈ c.store.plants := List.mem_of_find?_eq_some hfind
  have hfs : (c.store.plants.find? (fun p => p.id == ex.id)).isSome = true :=
    List.find?_isSome.mpr ⟨ex, hmem, by simp⟩
  cases hf0 : c.store.plants.find? (fun p => p.id == ex.id) with
  | none => rw [hf0] at hfs; simp at hfs
  | some p0 =>
    have hstep : ((restorePlantStep ImportMode.merge imageFiles now plant pm c).2).store.plants =
        c.store.plants.map (fun p =>
          if p.id == ex.id then applyPlantUpdate p (updateDataFor plant) else p) := by
      simp [restorePlantStep, hfind, Store.updatePlant, hf0]
    refine ⟨?_, ?_, ?_, ?_⟩ <;> rw [hstep, List.map_map] <;>
      refine List.map_eq_map_iff.mpr (fun p hp => ?_) <;>
      by_cases hid : p.id = ex.id <;>
      simp [hid, applyPlantUpdate, updateDataFor]

theorem merge_update_field_frame_witness :
    (Store.findPlantByDetails storeWithFern fernPlant.name fernPlant.species fernPlant.location =
      some { id := 1, name := "Fern", species := none, location := "Kitchen",
             wateringFrequency := 3, lastWatered := ⟨"2023-05-05"⟩,
             notes := some "repotted in spring", imageUrl := some "/uploads/1.jpg",
             userId := 7 }) ∧
    (((restorePlantStep ImportMode.merge [] now0 fernPlant [] ctxFern).2).store.plants.map
        (fun p => (p.id, p.name, p.species, p.location, p.imageUrl, p.userId)) =
      ctxFern.store.plants.map
        (fun p => (p.id, p.name, p.species, p.location, p.imageUrl, p.userId)) ∧
     ((restorePlantStep ImportMode.merge [] now0 fernPlant [] ctxFern).2).store.plants.map
        (fun p => p.wateringFrequency) =
      ctxFern.store.plants.map (fun p =>
        if p.id == 1 then fernPlant.wateringFrequency else p.wateringFrequency) ∧
     ((restorePlantStep ImportMode.merge [] now0 fernPlant [] ctxFern).2).store.plants.map
        (fun p => p.notes) =
      ctxFern.store.plants.map (fun p =>
        if p.id == 1 then fernPlant.notes else p.notes) ∧
     ((restorePlantStep ImportMode.merge [] now0 fernPlant [] ctxFern).2).store.plants.map
        (fun p => p.lastWatered) =
      ctxFern.store.plants.map (fun p =>
        if p.id == 1 then fernPlant.lastWatered.getD p.lastWatered else p.lastWatered)) :=
  ⟨by decide,
   merge_update_field_frame [] now0 fernPlant [] ctxFern
     { id := 1, name := "Fern", species := none, location := "Kitchen",
       wateringFrequency := 3, lastWatered := ⟨"2023-05-05"⟩,
       notes := some "repotted in spring", imageUrl := some "/uploads/1.jpg",
       userId := 7 } (by decide)⟩

/-- C7 counterexample: a watering record whose plant id resolves to
nothing is processed without incrementing any counter — the summary has
no skipped or updated counter for watering history (or locations) at
all, so created + updated + skipped = 0 while one record was seen. -/
theorem counters_not_exhaustive_cex :
    ((restoreWateringHistoryAux [orphanEntry] [] ctx0).summary.wateringHistoryCreated = 0) ∧
    ({ (restoreWateringHistoryAux [orphanEntry] [] ctx0).summary with warnings := [] } =
      initialSummary ImportMode.merge) ∧
    ([orphanEntry].length = 1) ∧
    ((restoreWateringHistoryAux [orphanEntry] [] ctx0).summary.warnings ≠ []) := by decide

theorem restorePlantStep_plants_accounting (mode : ImportMode)
    (imageFiles : List (String × String)) (now : DateVal) (plant : BackupPlant)
    (pm : List (Int × Nat)) (c : Ctx) :
    ((restorePlantStep mode imageFiles now plant pm c).2).summary.plantsCreated +
      ((restorePlantStep mode imageFiles now plant pm c).2).summary.plantsUpdated +
      ((restorePlantStep mode imageFiles now plant pm c).2).summary.plantsSkipped =
    c.summary.plantsCreated + c.summary.plantsUpdated + c.summary.plantsSkipped + 1 := by
  by_cases hmode : mode = ImportMode.merge
  · subst hmode
    cases hf : c.store.findPlantByDetails plant.name plant.species plant.location with
    | some ex =>
      have hmem : ex ∈ c.store.plants := List.mem_of_find?_eq_some hf
      have hfs : (c.store.plants.find? (fun p => p.id == ex.id)).isSome = true :=
        List.find?_isSome.mpr ⟨ex, hmem, by simp⟩
      cases hf0 : c.store.plants.find? (fun p => p.id == ex.id) with
      | none => rw [hf0] at hfs; simp at hfs
      | some p0 =>
        simp [restorePlantStep, hf, Store.updatePlant, hf0]
        omega
    | none =>
      cases hc : c.store.createPlant (plantDataFor plant now) with
      | error msg =>
        simp [restorePlantStep, hf, restorePlantCreate, hc]
        omega
      | ok res =>
        simp [restorePlantStep, hf, restorePlantCreate, hc, restorePlantImage_always_false]
        omega
  · cases hc : c.store.createPlant (plantDataFor plant now) with
    | error msg =>
      have heq : restorePlantStep mode imageFiles now plant pm c =
          restorePlantCreate imageFiles now plant pm c := by
        simp [restorePlantStep, hmode]
      rw [heq]
      simp [restorePlantCreate, hc]
      omega
    | ok res =>
      have heq : restorePlantStep mode imageFiles now plant pm c =
          restorePlantCreate imageFiles now plant pm c := by
        simp [restorePlantStep, hmode]
      rw [heq]
      simp [restorePlantCreate, hc, restorePlantImage_always_false]
      omega

theorem restorePlantsAux_plants_accounting (mode : ImportMode)
    (imageFiles : List (String × String)) (now : DateVal) (plants : List BackupPlant)
    (pm : List (Int × Nat)) (c : Ctx) :
    ((restorePlantsAux mode imageFiles now plants pm c).2).summary.plantsCreated +
      ((restorePlantsAux mode imageFiles now plants pm c).2).summary.plantsUpdated +
      ((restorePlantsAux mode imageFiles now plants pm c).2).summary.plantsSkipped =
    c.summary.plantsCreated + c.summary.plantsUpdated + c.summary.plantsSkipped +
      plants.length := by
  induction plants generalizing pm c with
  | nil => simp [restorePlantsAux]
  | cons plant rest ih =>
    have haux : restorePlantsAux mode imageFiles now (plant :: rest) pm c =
        restorePlantsAux mode imageFiles now rest
          (restorePlantStep mode imageFiles now plant pm c).1
          (restorePlantStep mode imageFiles now plant pm c).2 := rfl
    have hstep := restorePlantStep_plants_accounting mode imageFiles now plant pm c
    have hrest := ih (restorePlantStep mode imageFiles now plant pm c).1
      (restorePlantStep mode imageFiles now plant pm c).2
    rw [haux, List.length_cons]
    omega

/-- C7 (amended): the created + updated + skipped accounting holds for
plant records: every processed plant record increments exactly one of
plantsCreated, plantsUpdated and plantsSkipped, so their sum grows by
the number of records seen.  (For locations and watering history the
summary carries only a created counter — skipped or matched records
increment nothing, as the counterexample shows.) -/
theorem plants_accounting (plants : List BackupPlant) (imageFiles : List (String × String))
    (mode : ImportMode) (now : DateVal) (c : Ctx) :
    ((restorePlants plants imageFiles mode now c).2).summary.plantsCreated +
      ((restorePlants plants imageFiles mode now c).2).summary.plantsUpdated +
      ((restorePlants plants imageFiles mode now c).2).summary.plantsSkipped =
    c.summary.plantsCreated + c.summary.plantsUpdated + c.summary.plantsSkipped +
      plants.length :=
  restorePlantsAux_plants_accounting mode imageFiles now plants [] c

/-- C1 counterexample: an archive whose plants array holds one record
passing the schema (Fern) and one missing the required name field makes
the whole import throw the validation error before any storage call —
no summary with plantsCreated = 1 and plantsSkipped = 1 is returned. -/
theorem validation_failure_aborts_cex :
    ((parseBackupPlant fernJson).isOk = true) ∧
    ((parseBackupPlant badPlantJson).isOk = false) ∧
    (importFromZipBuffer c1zip ImportMode.merge now0 emptyStore =
      (Except.error "Expected string", emptyStore, [])) := by
  refine ⟨by decide, by decide, by decide⟩

theorem restorePlantsAux_replace_characterization (imageFiles : List (String × String))
    (now : DateVal) (plants : List BackupPlant) (pm : List (Int × Nat)) (c : Ctx) :
    ((restorePlantsAux ImportMode.replace imageFiles now plants pm c).2).summary.plantsCreated =
      c.summary.plantsCreated +
        (plants.filter (fun p => !decide (p.name ∈ c.store.failingPlantNames))).length ∧
    ((restorePlantsAux ImportMode.replace imageFiles now plants pm c).2).summary.plantsSkipped =
      c.summary.plantsSkipped +
        (plants.filter (fun p => decide (p.name ∈ c.store.failingPlantNames))).length ∧
    ((restorePlantsAux ImportMode.replace imageFiles now plants pm c).2).summary.warnings =
      c.summary.warnings ++
        (plants.filter (fun p => decide (p.name ∈ c.store.failingPlantNames))).map
          (fun p => "Failed to restore plant " ++ p.name ++ ": " ++
            ("storage failure creating plant " ++ p.name)) := by
  induction plants generalizing pm c with
  | nil => simp [restorePlantsAux]
  | cons plant rest ih =>
    have haux : restorePlantsAux ImportMode.replace imageFiles now (plant :: rest) pm c =
        restorePlantsAux ImportMode.replace imageFiles now rest
          (restorePlantStep ImportMode.replace imageFiles now plant pm c).1
          (restorePlantStep ImportMode.replace imageFiles now plant pm c).2 := rfl
    have heq : restorePlantStep ImportMode.replace imageFiles now plant pm c =
        restorePlantCreate imageFiles now plant pm c := by
      simp [restorePlantStep]
    obtain ⟨i1, i2, i3⟩ := ih (restorePlantStep ImportMode.replace imageFiles now plant pm c).1
      (restorePlantStep ImportMode.replace imageFiles now plant pm c).2
    rw [heq] at i1 i2 i3
    by_cases hmem : plant.name ∈ c.store.failingPlantNames
    · have hc : c.store.createPlant (plantDataFor plant now) =
          Except.error ("storage failure creating plant " ++ plant.name) := by
        have hmem2 : (plantDataFor plant now).name ∈ c.store.failingPlantNames := hmem
        unfold Store.createPlant
        rw [if_pos hmem2]
        rfl
      have h1 : (restorePlantCreate imageFiles now plant pm c).2.store = c.store := by
        simp [restorePlantCreate, hc]
      have h2 : (restorePlantCreate imageFiles now plant pm c).2.summary.plantsCreated =
          c.summary.plantsCreated := by simp [restorePlantCreate, hc]
      have h3 : (restorePlantCreate imageFiles now plant pm c).2.summary.plantsSkipped =
          c.summary.plantsSkipped + 1 := by simp [restorePlantCreate, hc]
      have h4 : (restorePlantCreate imageFiles now plant pm c).2.summary.warnings =
          c.summary.warnings ++ ["Failed to restore plant " ++ plant.name ++ ": " ++
            ("storage failure creating plant " ++ plant.name)] := by
        simp [restorePlantCreate, hc]
      rw [h1] at i1 i2 i3
      refine ⟨?_, ?_, ?_⟩ <;> rw [haux, heq]
      · rw [i1, h2, List.filter_cons]
        simp [hmem]
      · rw [i2, h3, List.filter_cons]
        simp [hmem]
        omega
      · rw [i3, h4, List.filter_cons]
        simp [hmem]
    · cases hc : c.store.createPlant (plantDataFor plant now) with
      | error msg =>
        exact absurd ((createPlant_error_iff c.store (plantDataFor plant now)).mp ⟨msg, hc⟩) hmem
      | ok res =>
        obtain ⟨hst, hpl, -⟩ := createPlant_ok_store c.store (plantDataFor plant now) res hc
        have h1 : (restorePlantCreate imageFiles now plant pm c).2.store.failingPlantNames =
            c.store.failingPlantNames := by
          simp [restorePlantCreate, hc, hst]
        have h2 : (restorePlantCreate imageFiles now plant pm c).2.summary.plantsCreated =
            c.summary.plantsCreated + 1 := by
          simp [restorePlantCreate, hc, restorePlantImage_always_false]
        have h3 : (restorePlantCreate imageFiles now plant pm c).2.summary.plantsSkipped =
            c.summary.plantsSkipped := by
          simp [restorePlantCreate, hc, restorePlantImage_always_false]
        have h4 : (restorePlantCreate imageFiles now plant pm c).2.summary.warnings =
            c.summary.warnings := by
          simp [restorePlantCreate, hc, restorePlantImage_always_false]
        rw [h1] at i1 i2 i3
        refine ⟨?_, ?_, ?_⟩ <;> rw [haux, heq]
        · rw [i1, h2, List.filter_cons]
          simp [hmem]
          omega
        · rw [i2, h3, List.filter_cons]
          simp [hmem]
        · rw [i3, h4, List.filter_cons]
          simp [hmem]

/-- C1 (amended): a record failing schema validation aborts the whole
run with the validation error before any storage call — no summary
is returned and the store is untouched.  Per-record failure isolation
exists only one layer down, for storage-level failures during
restoration: restoring N + 1 schema-valid plant records of which
exactly the failing ones are rejected by storage yields plantsCreated
counting the accepted records, plantsSkipped counting the rejected
ones, and one warning per rejected record, with no exception. -/
theorem validation_failure_isolation (zip : ZipBuffer) (mode : ImportMode) (now : DateVal)
    (st : Store) (j : Json) (imgs : List (String × String)) (e : String)
    (hx : extractZipContents zip = Except.ok (j, imgs))
    (hp : parseBackupData j = Except.error e)
    (imageFiles : List (String × String)) (plants : List BackupPlant)
    (pm : List (Int × Nat)) (c : Ctx) :
    importFromZipBuffer zip mode now st = (Except.error e, st, []) ∧
    (((restorePlantsAux ImportMode.replace imageFiles now plants pm c).2).summary.plantsCreated =
       c.summary.plantsCreated +
         (plants.filter (fun p => !decide (p.name ∈ c.store.failingPlantNames))).length ∧
     ((restorePlantsAux ImportMode.replace imageFiles now plants pm c).2).summary.plantsSkipped =
       c.summary.plantsSkipped +
         (plants.filter (fun p => decide (p.name ∈ c.store.failingPlantNames))).length ∧
     ((restorePlantsAux ImportMode.replace imageFiles now plants pm c).2).summary.warnings =
       c.summary.warnings ++
         (plants.filter (fun p => decide (p.name ∈ c.store.failingPlantNames))).map
           (fun p => "Failed to restore plant " ++ p.name ++ ": " ++
             ("storage failure creating plant " ++ p.name))) := by
  constructor
  · simp [importFromZipBuffer, hx, hp]
  · exact restorePlantsAux_replace_characterization imageFiles now plants pm c

theorem validation_failure_isolation_witness :
    (extractZipContents c1zip = Except.ok (c1Manifest, []) ∧
     parseBackupData c1Manifest = Except.error "Expected string") ∧
    (importFromZipBuffer c1zip ImportMode.merge now0 emptyStore =
       (Except.error "Expected string", emptyStore, []) ∧
     (((restorePlantsAux ImportMode.replace [] now0 [fernPlant, cactusPlant] [] failCtx).2).summary.plantsCreated =
        failCtx.summary.plantsCreated +
          ([fernPlant, cactusPlant].filter
            (fun p => !decide (p.name ∈ failCtx.store.failingPlantNames))).length ∧
      ((restorePlantsAux ImportMode.replace [] now0 [fernPlant, cactusPlant] [] failCtx).2).summary.plantsSkipped =
        failCtx.summary.plantsSkipped +
          ([fernPlant, cactusPlant].filter
            (fun p => decide (p.name ∈ failCtx.store.failingPlantNames))).length ∧
      ((restorePlantsAux ImportMode.replace [] now0 [fernPlant, cactusPlant] [] failCtx).2).summary.warnings =
        failCtx.summary.warnings ++
          ([fernPlant, cactusPlant].filter
            (fun p => decide (p.name ∈ failCtx.store.failingPlantNames))).map
            (fun p => "Failed to restore plant " ++ p.name ++ ": " ++
              ("storage failure creating plant " ++ p.name)))) :=
  ⟨⟨rfl, rfl⟩,
   validation_failure_isolation c1zip ImportMode.merge now0 emptyStore c1Manifest []
     "Expected string" rfl rfl [] [fernPlant, cactusPlant] [] failCtx⟩

theorem restoreWateringHistoryAux_length (entries : List BackupWateringEntry)
    (pm : List (Int × Nat)) (c : Ctx) :
    (restoreWateringHistoryAux entries pm c).store.watering.length +
      c.summary.wateringHistoryCreated =
    c.store.watering.length +
      (restoreWateringHistoryAux entries pm c).summary.wateringHistoryCreated := by
  induction entries generalizing c with
  | nil => simp [restoreWateringHistoryAux]
  | cons e rest ih =>
    have haux : restoreWateringHistoryAux (e :: rest) pm c =
        restoreWateringHistoryAux rest pm (restoreWateringStep e pm c) := rfl
    have hrest := ih (restoreWateringStep e pm c)
    rw [haux]
    cases hm : mapGet e.plantId pm with
    | none =>
      have e1 : (restoreWateringStep e pm c).store.watering.length =
          c.store.watering.length := by simp [restoreWateringStep, hm]
      have e2 : (restoreWateringStep e pm c).summary.wateringHistoryCreated =
          c.summary.wateringHistoryCreated := by simp [restoreWateringStep, hm]
      omega
    | some v =>
      cases v with
      | zero =>
        have e1 : (restoreWateringStep e pm c).store.watering.length =
            c.store.watering.length := by simp [restoreWateringStep, hm]
        have e2 : (restoreWateringStep e pm c).summary.wateringHistoryCreated =
            c.summary.wateringHistoryCreated := by simp [restoreWateringStep, hm]
        omega
      | succ k =>
        have e1 : (restoreWateringStep e pm c).store.watering.length =
            c.store.watering.length + 1 := by
          simp [restoreWateringStep, hm, Store.createWateringHistory]
        have e2 : (restoreWateringStep e pm c).summary.wateringHistoryCreated =
            c.summary.wateringHistoryCreated + 1 := by simp [restoreWateringStep, hm]
        omega

theorem runRestorePhases_watering_length (vd : BackupData) (imageFiles : List (String × String))
    (mode : ImportMode) (now : DateVal) (c : Ctx) :
    (runRestorePhases vd imageFiles mode now c).store.watering.length +
      c.summary.wateringHistoryCreated =
    c.store.watering.length +
      (runRestorePhases vd imageFiles mode now c).summary.wateringHistoryCreated := by
  obtain ⟨-, hwL, -, -, -, -, -, -, -, -, hcL, -⟩ := restoreLocationsAux_frame vd.locations [] c
  obtain ⟨-, hwP, -, -, -, -, -, hcP, -⟩ := restorePlantsAux_frame mode imageFiles now vd.plants []
    (restoreLocationsAux vd.locations [] c).2
  have hlink := restoreWateringHistoryAux_length vd.wateringHistory
    (restorePlantsAux mode imageFiles now vd.plants [] (restoreLocationsAux vd.locations [] c).2).1
    (restorePlantsAux mode imageFiles now vd.plants [] (restoreLocationsAux vd.locations [] c).2).2
  have hwLlen : (restoreLocationsAux vd.locations [] c).2.store.watering.length =
      c.store.watering.length := by rw [hwL]
  have hwPlen : (restorePlantsAux mode imageFiles now vd.plants []
      (restoreLocationsAux vd.locations [] c).2).2.store.watering.length =
      (restoreLocationsAux vd.locations [] c).2.store.watering.length := by rw [hwP]
  cases hns : vd.notificationSettings with
  | none =>
    rw [runRestorePhases]
    simp only [hns, restoreLocations, restorePlants, restoreWateringHistory]
    omega
  | some s =>
    obtain ⟨-, -, hwN, -, -, -, -, -, -, -, -, hcN, -⟩ :=
      restoreNotificationSettings_frame s
        (restoreWateringHistoryAux vd.wateringHistory
          (restorePlantsAux mode imageFiles now vd.plants []
            (restoreLocationsAux vd.locations [] c).2).1
          (restorePlantsAux mode imageFiles now vd.plants []
            (restoreLocationsAux vd.locations [] c).2).2)
    have hwNlen : (restoreNotificationSettings s
        (restoreWateringHistoryAux vd.wateringHistory
          (restorePlantsAux mode imageFiles now vd.plants []
            (restoreLocationsAux vd.locations [] c).2).1
          (restorePlantsAux mode imageFiles now vd.plants []
            (restoreLocationsAux vd.locations [] c).2).2)).store.watering.length =
        (restoreWateringHistoryAux vd.wateringHistory
          (restorePlantsAux mode imageFiles now vd.plants []
            (restoreLocationsAux vd.locations [] c).2).1
          (restorePlantsAux mode imageFiles now vd.plants []
            (restoreLocationsAux vd.locations [] c).2).2).store.watering.length := by
      rw [hwN]
    rw [runRestorePhases]
    simp only [hns, restoreLocations, restorePlants, restoreWateringHistory]
    omega

theorem locationExistsCheck_congr (st st1 : Store) (h : st1.locations = st.locations)
    (n : String) : locationExistsCheck st1 n = locationExistsCheck st n := by
  unfold locationExistsCheck Store.getAllLocations
  rw [h]

theorem locationExistsCheck_mono (st st1 : Store)
    (h : ∀ l ∈ st.locations, l ∈ st1.locations) (n : String)
    (hc : locationExistsCheck st n = true) : locationExistsCheck st1 n = true := by
  unfold locationExistsCheck Store.getAllLocations at hc ⊢
  obtain ⟨x, hx, hpx⟩ := List.any_eq_true.mp hc
  exact List.any_eq_true.mpr ⟨x, h x hx, hpx⟩

theorem restoreLocationStep_defaults (loc : BackupLocation) (m : List (String × String))
    (c : Ctx) :
    ∀ l ∈ ((restoreLocationStep loc m c).2).store.locations, l.isDefault = true →
      l ∈ c.store.locations := by
  intro l hl hdef
  by_cases hd : loc.isDefault
  · have hstep : ((restoreLocationStep loc m c).2).store = c.store := by
      simp [restoreLocationStep, hd]
    rw [hstep] at hl
    exact hl
  · have hstep : ((restoreLocationStep loc m c).2).store =
        (c.store.upsertLocationByName loc.name false).2 := by
      simp [restoreLocationStep, hd]
    rw [hstep] at hl
    unfold Store.upsertLocationByName at hl
    cases hf : c.store.locations.find? (fun l => strLower l.name == strLower loc.name) with
    | some l0 =>
      rw [hf] at hl
      exact hl
    | none =>
      rw [hf] at hl
      simp only [List.mem_append, List.mem_singleton] at hl
      rcases hl with hl | hl
      · exact hl
      · rw [hl] at hdef
        simp at hdef

theorem restoreLocationStep_establishes (loc : BackupLocation) (hnd : loc.isDefault = false)
    (m : List (String × String)) (c : Ctx)
    (hcol : ∀ l ∈ c.store.locations, l.isDefault = true →
      strLower l.name ≠ strLower loc.name) :
    locationExistsCheck ((restoreLocationStep loc m c).2).store loc.name = true := by
  have hstep : ((restoreLocationStep loc m c).2).store =
      (c.store.upsertLocationByName loc.name false).2 := by
    simp [restoreLocationStep, hnd]
  rw [hstep]
  unfold Store.upsertLocationByName
  cases hf : c.store.locations.find? (fun l => strLower l.name == strLower loc.name) with
  | some l0 =>
    have hmem := List.mem_of_find?_eq_some hf
    have hpred : strLower l0.name = strLower loc.name := by
      have := List.find?_some hf
      simpa using this
    have hdef : l0.isDefault = false := by
      cases hd : l0.isDefault with
      | true => exact absurd hpred (hcol l0 hmem hd)
      | false => rfl
    unfold locationExistsCheck Store.getAllLocations
    refine List.any_eq_true.mpr ⟨l0, hmem, ?_⟩
    simp [hpred, hdef]
  | none =>
    unfold locationExistsCheck Store.getAllLocations
    refine List.any_eq_true.mpr
      ⟨{ id := c.store.nextLocationId, name := loc.name, isDefault := false }, by simp, by simp⟩

theorem restoreLocationsAux_establishes (locs : List BackupLocation)
    (m : List (String × String)) (c : Ctx) (loc : BackupLocation) (hmem : loc ∈ locs)
    (hnd : loc.isDefault = false)
    (hcol : ∀ l ∈ c.store.locations, l.isDefault = true →
      strLower l.name ≠ strLower loc.name) :
    locationExistsCheck ((restoreLocationsAux locs m c).2).store loc.name = true := by
  induction locs generalizing m c with
  | nil => cases hmem
  | cons q rest ih =>
    rcases List.mem_cons.mp hmem with rfl | hmm
    · have h0 := restoreLocationStep_establishes loc hnd m c hcol
      obtain ⟨-, -, -, -, -, -, hmono, -, -, -, -, -⟩ :=
        restoreLocationsAux_frame rest (restoreLocationStep loc m c).1
          (restoreLocationStep loc m c).2
      exact locationExistsCheck_mono _ _ hmono _ h0
    · refine ih (restoreLocationStep q m c).1 (restoreLocationStep q m c).2 hmm ?_
      intro l hl hdef
      exact hcol l (restoreLocationStep_defaults q m c l hl hdef) hdef

theorem restoreLocationsAux_no_creates (locs : List BackupLocation)
    (m : List (String × String)) (c : Ctx)
    (h : ∀ loc ∈ locs, loc.isDefault = true ∨ locationExistsCheck c.store loc.name = true) :
    ((restoreLocationsAux locs m c).2).summary.locationsCreated =
      c.summary.locationsCreated := by
  induction locs generalizing m c with
  | nil => simp [restoreLocationsAux]
  | cons q rest ih =>
    have hq := h q (List.mem_cons_self q rest)
    have hstep : ((restoreLocationStep q m c).2).summary.locationsCreated =
        c.summary.locationsCreated := by
      rcases hq with hd | hex
      · simp [restoreLocationStep, hd]
      · by_cases hd : q.isDefault
        · simp [restoreLocationStep, hd]
        · simp [restoreLocationStep, hd, hex]
    have hrest : ∀ loc ∈ rest, loc.isDefault = true ∨
        locationExistsCheck ((restoreLocationStep q m c).2).store loc.name = true := by
      intro loc hl
      rcases h loc (List.mem_cons_of_mem _ hl) with hd | hex
      · exact Or.inl hd
      · obtain ⟨-, -, -, -, -, -, hmono, -, -, -, -, -⟩ := restoreLocationStep_frame q m c
        exact Or.inr (locationExistsCheck_mono _ _ hmono _ hex)
    exact (ih (restoreLocationStep q m c).1 (restoreLocationStep q m c).2 hrest).trans hstep

theorem jsOrNull_idem (s : Option String) : jsOrNull (jsOrNull s) = jsOrNull s := by
  cases s with
  | none => rfl
  | some v => by_cases h : v = "" <;> simp [jsOrNull, h]

theorem plantMatches_applyUpdate (q : StoredPlant) (plant : BackupPlant) (n : String)
    (s : Option String) (l : String) :
    plantMatches (applyPlantUpdate q (updateDataFor plant)) n s l = plantMatches q n s l := by
  simp [plantMatches, applyPlantUpdate, updateDataFor]

theorem matchExists_congr (st st1 : Store) (h : st1.plants = st.plants) (n : String)
    (s : Option String) (l : String) (hm : matchExists st n s l) : matchExists st1 n s l := by
  obtain ⟨q, hq, hqq⟩ := hm
  exact ⟨q, by rw [h]; exact hq, hqq⟩

theorem matchExists_mono_create (imageFiles : List (String × String)) (now : DateVal)
    (plant : BackupPlant) (pm : List (Int × Nat)) (c : Ctx) (n : String)
    (s : Option String) (l : String) (h : matchExists c.store n s l) :
    matchExists ((restorePlantCreate imageFiles now plant pm c).2).store n s l := by
  obtain ⟨q, hq, hqq⟩ := h
  cases hc : c.store.createPlant (plantDataFor plant now) with
  | error msg =>
    have hpl : ((restorePlantCreate imageFiles now plant pm c).2).store = c.store := by
      simp [restorePlantCreate, hc]
    exact ⟨q, by rw [hpl]; exact hq, hqq⟩
  | ok res =>
    obtain ⟨hst, -, -⟩ := createPlant_ok_store c.store (plantDataFor plant now) res hc
    have hpl : ((restorePlantCreate imageFiles now plant pm c).2).store.plants =
        c.store.plants ++ [res.1] := by
      simp [restorePlantCreate, hc, hst]
    exact ⟨q, by rw [hpl]; exact List.mem_append_left _ hq, hqq⟩

theorem matchExists_mono_step (mode : ImportMode) (imageFiles : List (String × String))
    (now : DateVal) (plant : BackupPlant) (pm : List (Int × Nat)) (c : Ctx) (n : String)
    (s : Option String) (l : String) (h : matchExists c.store n s l) :
    matchExists ((restorePlantStep mode imageFiles now plant pm c).2).store n s l := by
  by_cases hmode : mode = ImportMode.merge
  · subst hmode
    cases hf : c.store.findPlantByDetails plant.name plant.species plant.location with
    | some ex =>
      cases hf0 : c.store.plants.find? (fun p => p.id == ex.id) with
      | none =>
        have hpl : ((restorePlantStep ImportMode.merge imageFiles now plant pm c).2).store.plants =
            c.store.plants := by
          simp [restorePlantStep, hf, Store.updatePlant, hf0]
        exact matchExists_congr c.store _ hpl n s l h
      | some p0 =>
        have hpl : ((restorePlantStep ImportMode.merge imageFiles now plant pm c).2).store.plants =
            c.store.plants.map (fun p =>
              if p.id == ex.id then applyPlantUpdate p (updateDataFor plant) else p) := by
          simp [restorePlantStep, hf, Store.updatePlant, hf0]
        obtain ⟨q, hq, hqq⟩ := h
        refine ⟨if q.id == ex.id then applyPlantUpdate q (updateDataFor plant) else q, ?_, ?_⟩
        · rw [hpl]
          exact List.mem_map_of_mem _ hq
        · by_cases hid : (q.id == ex.id) = true
          · simp [hid, plantMatches_applyUpdate, hqq]
          · simp [hid, hqq]
    | none =>
      have heq : restorePlantStep ImportMode.merge imageFiles now plant pm c =
          restorePlantCreate imageFiles now plant pm
            { c with trace := c.trace ++
                [StorageCall.findPlantByDetails plant.name plant.species plant.location] } := by
        simp [restorePlantStep, hf]
      rw [heq]
      exact matchExists_mono_create imageFiles now plant pm _ n s l h
  · have heq : restorePlantStep mode imageFiles now plant pm c =
        restorePlantCreate imageFiles now plant pm c := by
      simp [restorePlantStep, hmode]
    rw [heq]
    exact matchExists_mono_create imageFiles now plant pm c n s l h

theorem matchExists_mono_aux (mode : ImportMode) (imageFiles : List (String × String))
    (now : DateVal) (plants : List BackupPlant) (pm : List (Int × Nat)) (c : Ctx) (n : String)
    (s : Option String) (l : String) (h : matchExists c.store n s l) :
    matchExists ((restorePlantsAux mode imageFiles now plants pm c).2).store n s l := by
  induction plants generalizing pm c with
  | nil => exact h
  | cons plant rest ih =>
    exact ih (restorePlantStep mode imageFiles now plant pm c).1
      (restorePlantStep mode imageFiles now plant pm c).2
      (matchExists_mono_step mode imageFiles now plant pm c n s l h)

theorem restorePlantStep_accounts_self (imageFiles : List (String × String)) (now : DateVal)
    (plant : BackupPlant) (pm : List (Int × Nat)) (c : Ctx) :
    matchExists ((restorePlantStep ImportMode.merge imageFiles now plant pm c).2).store
      plant.name plant.species plant.location ∨
    plant.name ∈ c.store.failingPlantNames := by
  cases hf : c.store.findPlantByDetails plant.name plant.species plant.location with
  | some ex =>
    left
    have hf2 : c.store.plants.find?
        (fun p => plantMatches p plant.name plant.species plant.location) = some ex := hf
    have hpred : plantMatches ex plant.name plant.species plant.location = true := by
      simpa using List.find?_some hf2
    have h0 : matchExists c.store plant.name plant.species plant.location :=
      ⟨ex, List.mem_of_find?_eq_some hf2, hpred⟩
    exact matchExists_mono_step ImportMode.merge imageFiles now plant pm c _ _ _ h0
  | none =>
    cases hc : c.store.createPlant (plantDataFor plant now) with
    | error msg =>
      right
      exact (createPlant_error_iff c.store (plantDataFor plant now)).mp ⟨msg, hc⟩
    | ok res =>
      left
      obtain ⟨hst, hrec, -⟩ := createPlant_ok_store c.store (plantDataFor plant now) res hc
      have hpl : ((restorePlantStep ImportMode.merge imageFiles now plant pm c).2).store.plants =
          c.store.plants ++ [res.1] := by
        have heq : restorePlantStep ImportMode.merge imageFiles now plant pm c =
            restorePlantCreate imageFiles now plant pm
              { c with trace := c.trace ++
                  [StorageCall.findPlantByDetails plant.name plant.species plant.location] } := by
          simp [restorePlantStep, hf]
        rw [heq]
        simp [restorePlantCreate, hc, hst]
      refine ⟨res.1, by rw [hpl]; simp, ?_⟩
      rw [hrec]
      simp [plantMatches, plantDataFor, jsOrNull_idem]

theorem restorePlantsAux_accounts (imageFiles : List (String × String)) (now : DateVal)
    (plants : List BackupPlant) (pm : List (Int × Nat)) (c : Ctx) (p : BackupPlant)
    (hp : p ∈ plants) :
    matchExists ((restorePlantsAux ImportMode.merge imageFiles now plants pm c).2).store
      p.name p.species p.location ∨
    p.name ∈ c.store.failingPlantNames := by
  induction plants generalizing pm c with
  | nil => cases hp
  | cons q rest ih =>
    rcases List.mem_cons.mp hp with rfl | hmm
    · rcases restorePlantStep_accounts_self imageFiles now p pm c with hm | hfl
      · exact Or.inl (matchExists_mono_aux ImportMode.merge imageFiles now rest
          (restorePlantStep ImportMode.merge imageFiles now p pm c).1
          (restorePlantStep ImportMode.merge imageFiles now p pm c).2 _ _ _ hm)
      · exact Or.inr hfl
    · rcases ih (restorePlantStep ImportMode.merge imageFiles now q pm c).1
        (restorePlantStep ImportMode.merge imageFiles now q pm c).2 hmm with hm | hfl
      · exact Or.inl hm
      · obtain ⟨-, -, -, hfr, -, -, -, -, -⟩ :=
          restorePlantStep_frame ImportMode.merge imageFiles now q pm c
        exact Or.inr (hfr ▸ hfl)

theorem restorePlantsAux_merge_no_creates (imageFiles : List (String × String))
    (now : DateVal) (plants : List BackupPlant) (pm : List (Int × Nat)) (c : Ctx)
    (h : ∀ p ∈ plants, matchExists c.store p.name p.species p.location ∨
         p.name ∈ c.store.failingPlantNames) :
    ((restorePlantsAux ImportMode.merge imageFiles now plants pm c).2).summary.plantsCreated =
      c.summary.plantsCreated := by
  induction plants generalizing pm c with
  | nil => simp [restorePlantsAux]
  | cons q rest ih =>
    have hq := h q (List.mem_cons_self q rest)
    have hstep : ((restorePlantStep ImportMode.merge imageFiles now q pm c).2).summary.plantsCreated =
        c.summary.plantsCreated := by
      rcases hq with ⟨w, hw, hmw⟩ | hfl
      · cases hf : c.store.findPlantByDetails q.name q.species q.location with
        | none =>
          have hnone : c.store.plants.find?
              (fun p => plantMatches p q.name q.species q.location) = none := hf
          exact absurd hmw (List.find?_eq_none.mp hnone w hw)
        | some ex =>
          cases hf0 : c.store.plants.find? (fun p => p.id == ex.id) with
          | none => simp [restorePlantStep, hf, Store.updatePlant, hf0]
          | some p0 => simp [restorePlantStep, hf, Store.updatePlant, hf0]
      · cases hf : c.store.findPlantByDetails q.name q.species q.location with
        | some ex =>
          cases hf0 : c.store.plants.find? (fun p => p.id == ex.id) with
          | none => simp [restorePlantStep, hf, Store.updatePlant, hf0]
          | some p0 => simp [restorePlantStep, hf, Store.updatePlant, hf0]
        | none =>
          have hc : c.store.createPlant (plantDataFor q now) =
              Except.error ("storage failure creating plant " ++ q.name) := by
            have hmem2 : (plantDataFor q now).name ∈ c.store.failingPlantNames := hfl
            unfold Store.createPlant
            rw [if_pos hmem2]
            rfl
          simp [restorePlantStep, hf, restorePlantCreate, hc]
    have htrans : ∀ p ∈ rest,
        matchExists ((restorePlantStep ImportMode.merge imageFiles now q pm c).2).store
          p.name p.species p.location ∨
        p.name ∈ ((restorePlantStep ImportMode.merge imageFiles now q pm c).2).store.failingPlantNames := by
      intro p hp
      rcases h p (List.mem_cons_of_mem _ hp) with hm | hfl
      · exact Or.inl (matchExists_mono_step ImportMode.merge imageFiles now q pm c _ _ _ hm)
      · obtain ⟨-, -, -, hfr, -, -, -, -, -⟩ :=
          restorePlantStep_frame ImportMode.merge imageFiles now q pm c
        exact Or.inr (by rw [hfr]; exact hfl)
    exact (ih (restorePlantStep ImportMode.merge imageFiles now q pm c).1
      (restorePlantStep ImportMode.merge imageFiles now q pm c).2 htrans).trans hstep

theorem runRestorePhases_store_components (vd : BackupData)
    (imageFiles : List (String × String)) (mode : ImportMode) (now : DateVal) (c : Ctx) :
    (runRestorePhases vd imageFiles mode now c).store.locations =
      ((restoreLocationsAux vd.locations [] c).2).store.locations ∧
    (runRestorePhases vd imageFiles mode now c).store.plants =
      ((restorePlantsAux mode imageFiles now vd.plants []
        (restoreLocationsAux vd.locations [] c).2).2).store.plants ∧
    (runRestorePhases vd imageFiles mode now c).store.failingPlantNames =
      c.store.failingPlantNames ∧
    (runRestorePhases vd imageFiles mode now c).summary.locationsCreated =
      ((restoreLocationsAux vd.locations [] c).2).summary.locationsCreated ∧
    (runRestorePhases vd imageFiles mode now c).summary.plantsCreated =
      ((restorePlantsAux mode imageFiles now vd.plants []
        (restoreLocationsAux vd.locations [] c).2).2).summary.plantsCreated := by
  obtain ⟨-, -, -, l4, -, -, -, -, -, -, -, -⟩ := restoreLocationsAux_frame vd.locations [] c
  obtain ⟨p1, -, -, p4, -, -, p7, -, -⟩ := restorePlantsAux_frame mode imageFiles now vd.plants []
    (restoreLocationsAux vd.locations [] c).2
  obtain ⟨w1, w2, -, w4, -, -, w7, w8, -, -, -⟩ :=
    restoreWateringHistoryAux_frame vd.wateringHistory
      (restorePlantsAux mode imageFiles now vd.plants []
        (restoreLocationsAux vd.locations [] c).2).1
      (restorePlantsAux mode imageFiles now vd.plants []
        (restoreLocationsAux vd.locations [] c).2).2
  cases hns : vd.notificationSettings with
  | none =>
    rw [runRestorePhases]
    simp only [hns, restoreLocations, restorePlants, restoreWateringHistory]
    exact ⟨w1.trans p1, w2, w4.trans (p4.trans l4), w7.trans p7, w8⟩
  | some s =>
    obtain ⟨n1, n2, -, n4, -, -, -, n8, n9, -, -, -, -⟩ :=
      restoreNotificationSettings_frame s
        (restoreWateringHistoryAux vd.wateringHistory
          (restorePlantsAux mode imageFiles now vd.plants []
            (restoreLocationsAux vd.locations [] c).2).1
          (restorePlantsAux mode imageFiles now vd.plants []
            (restoreLocationsAux vd.locations [] c).2).2)
    rw [runRestorePhases]
    simp only [hns, restoreLocations, restorePlants, restoreWateringHistory]
    exact ⟨(n1.trans w1).trans p1, n2.trans w2, (n4.trans w4).trans (p4.trans l4),
      (n8.trans w7).trans p7, n9.trans w8⟩

theorem runRestorePhases_prepares (vd : BackupData) (imageFiles : List (String × String))
    (now : DateVal) (c : Ctx)
    (hcol : ∀ l ∈ c.store.locations, l.isDefault = true →
      ∀ loc ∈ vd.locations, strLower l.name ≠ strLower loc.name) :
    (∀ loc ∈ vd.locations, loc.isDefault = true ∨
      locationExistsCheck (runRestorePhases vd imageFiles ImportMode.merge now c).store
        loc.name = true) ∧
    (∀ p ∈ vd.plants,
      matchExists (runRestorePhases vd imageFiles ImportMode.merge now c).store
        p.name p.species p.location ∨
      p.name ∈ (runRestorePhases vd imageFiles ImportMode.merge now c).store.failingPlantNames) := by
  obtain ⟨e1, e2, e3, -, -⟩ :=
    runRestorePhases_store_components vd imageFiles ImportMode.merge now c
  constructor
  · intro loc hl
    by_cases hd : loc.isDefault = true
    · exact Or.inl hd
    · refine Or.inr ?_
      have h0 := restoreLocationsAux_establishes vd.locations [] c loc hl
        (by simpa using hd) (fun l hlm hdef => hcol l hlm hdef loc hl)
      rw [locationExistsCheck_congr _ _ e1]
      exact h0
  · intro p hp
    rcases restorePlantsAux_accounts imageFiles now vd.plants []
      (restoreLocationsAux vd.locations [] c).2 p hp with hm | hfl
    · exact Or.inl (matchExists_congr _ _ e2 _ _ _ hm)
    · refine Or.inr ?_
      rw [e3]
      obtain ⟨-, -, -, hl4, -, -, -, -, -, -, -, -⟩ := restoreLocationsAux_frame vd.locations [] c
      rw [← hl4]
      exact hfl

theorem runRestorePhases_merge_stable (vd : BackupData) (imageFiles : List (String × String))
    (now : DateVal) (c : Ctx)
    (hloc : ∀ loc ∈ vd.locations, loc.isDefault = true ∨
      locationExistsCheck c.store loc.name = true)
    (hpl : ∀ p ∈ vd.plants, matchExists c.store p.name p.species p.location ∨
      p.name ∈ c.store.failingPlantNames) :
    (runRestorePhases vd imageFiles ImportMode.merge now c).summary.locationsCreated =
      c.summary.locationsCreated ∧
    (runRestorePhases vd imageFiles ImportMode.merge now c).summary.plantsCreated =
      c.summary.plantsCreated := by
  obtain ⟨-, -, -, e4, e5⟩ :=
    runRestorePhases_store_components vd imageFiles ImportMode.merge now c
  constructor
  · rw [e4]
    exact restoreLocationsAux_no_creates vd.locations [] c hloc
  · rw [e5]
    obtain ⟨hp1, -, -, hp4, -, -, -, hc8, -, -, -, -⟩ :=
      restoreLocationsAux_frame vd.locations [] c
    have hpl2 : ∀ p ∈ vd.plants,
        matchExists (restoreLocationsAux vd.locations [] c).2.store
          p.name p.species p.location ∨
        p.name ∈ (restoreLocationsAux vd.locations [] c).2.store.failingPlantNames := by
      intro p hp
      rcases hpl p hp with hm | hf
      · exact Or.inl (matchExists_congr _ _ hp1 _ _ _ hm)
      · exact Or.inr (by rw [hp4]; exact hf)
    exact (restorePlantsAux_merge_no_creates imageFiles now vd.plants []
      (restoreLocationsAux vd.locations [] c).2 hpl2).trans hc8

/-- C4 counterexample: re-importing the concrete scenario archive in
merge mode is not idempotent.  Watering history is duplicated: the
second import creates one more watering event, leaving two identical
rows under the same plant.  And into an account seeded with a default
Kitchen the second import still reports a location create: the
existence check skips default locations while the upsert reuses any
location by name, so the colliding name is recounted on every run. -/
theorem merge_reimport_not_idempotent_cex :
    ((importFromZipBuffer scenarioZip ImportMode.merge now0
        (importFromZipBuffer scenarioZip ImportMode.merge now0 emptyStore).2.1).1.map
      (fun s => s.wateringHistoryCreated) = Except.ok 1) ∧
    (((importFromZipBuffer scenarioZip ImportMode.merge now0
        (importFromZipBuffer scenarioZip ImportMode.merge now0 emptyStore).2.1).2.1).watering.map
      (fun w => (w.plantId, w.wateredAt)) =
      [(1, ⟨"2024-01-01"⟩), (1, ⟨"2024-01-01"⟩)]) ∧
    ((importFromZipBuffer scenarioZip ImportMode.merge now0
        (importFromZipBuffer scenarioZip ImportMode.merge now0 storeWithDefaults).2.1).1.map
      (fun s => s.locationsCreated) = Except.ok 1) := by
  refine ⟨?_, ?_, ?_⟩ <;> rfl

/-- C4 (amended): re-importing the same archive in merge mode creates
zero additional plants (matched records are updated or re-skipped), and
zero additional locations when none of the account's existing locations
is flagged default; watering history is not deduplicated: the second run
creates one fresh watering row per resolvable record, its count
being exactly the growth of the watering table.  A default location
sharing an archive location's name breaks even the location part, as
the counterexample shows, because the existence check skips defaults
while the upsert matches any location by name. -/
theorem merge_reimport_partial_idempotence (zip : ZipBuffer) (now : DateVal) (st : Store)
    (h1 : (importFromZipBuffer zip ImportMode.merge now st).1.isOk = true)
    (hnd : ∀ l ∈ st.locations, l.isDefault = false) :
    (importFromZipBuffer zip ImportMode.merge now
        (importFromZipBuffer zip ImportMode.merge now st).2.1).1.map
      (fun s => (s.locationsCreated, s.plantsCreated, s.wateringHistoryCreated)) =
    Except.ok (0, 0,
      (importFromZipBuffer zip ImportMode.merge now
          (importFromZipBuffer zip ImportMode.merge now st).2.1).2.1.watering.length -
        (importFromZipBuffer zip ImportMode.merge now st).2.1.watering.length) := by
  cases hx : extractZipContents zip with
  | error e => simp [importFromZipBuffer, hx, Except.isOk, Except.toBool] at h1
  | ok p =>
    cases hp : parseBackupData p.1 with
    | error e =>
      simp only [importFromZipBuffer, hx, hp] at h1
      simp [Except.isOk, Except.toBool] at h1
    | ok vd =>
      have hL : ∀ s0 : Store, importFromZipBuffer zip ImportMode.merge now s0 =
          (Except.ok (runRestorePhases vd p.2 ImportMode.merge now
              { store := s0, trace := [], summary := initialSummary ImportMode.merge }).summary,
           (runRestorePhases vd p.2 ImportMode.merge now
              { store := s0, trace := [], summary := initialSummary ImportMode.merge }).store,
           (runRestorePhases vd p.2 ImportMode.merge now
              { store := s0, trace := [], summary := initialSummary ImportMode.merge }).trace) := by
        intro s0
        simp only [importFromZipBuffer, hx, hp]
        rw [if_neg (by decide : ¬(ImportMode.merge = ImportMode.replace))]
      have f2 : (importFromZipBuffer zip ImportMode.merge now st).2.1 =
          (runRestorePhases vd p.2 ImportMode.merge now
            { store := st, trace := [], summary := initialSummary ImportMode.merge }).store := by
        rw [hL st]
      rw [f2, hL ((runRestorePhases vd p.2 ImportMode.merge now
        { store := st, trace := [], summary := initialSummary ImportMode.merge }).store)]
      obtain ⟨hlocs, hplants⟩ := runRestorePhases_prepares vd p.2 now
        { store := st, trace := [], summary := initialSummary ImportMode.merge }
        (by
          intro l hl hdef loc hlm
          rw [hnd l hl] at hdef
          simp at hdef)
      obtain ⟨hs1, hs2⟩ := runRestorePhases_merge_stable vd p.2 now
        { store := (runRestorePhases vd p.2 ImportMode.merge now
            { store := st, trace := [], summary := initialSummary ImportMode.merge }).store,
          trace := [], summary := initialSummary ImportMode.merge }
        hlocs hplants
      have hlink := runRestorePhases_watering_length vd p.2 ImportMode.merge now
        { store := (runRestorePhases vd p.2 ImportMode.merge now
            { store := st, trace := [], summary := initialSummary ImportMode.merge }).store,
          trace := [], summary := initialSummary ImportMode.merge }
      simp only [Except.map, Except.ok.injEq, Prod.mk.injEq]
      refine ⟨hs1.trans rfl, hs2.trans rfl, ?_⟩
      dsimp only [initialSummary] at hlink ⊢
      omega

theorem merge_reimport_partial_idempotence_witness :
    ((importFromZipBuffer scenarioZip ImportMode.merge now0 emptyStore).1.isOk = true) ∧
    (∀ l ∈ emptyStore.locations, l.isDefault = false) ∧
    ((importFromZipBuffer scenarioZip ImportMode.merge now0
        (importFromZipBuffer scenarioZip ImportMode.merge now0 emptyStore).2.1).1.map
      (fun s => (s.locationsCreated, s.plantsCreated, s.wateringHistoryCreated)) =
    Except.ok (0, 0,
      (importFromZipBuffer scenarioZip ImportMode.merge now0
          (importFromZipBuffer scenarioZip ImportMode.merge now0 emptyStore).2.1).2.1.watering.length -
        (importFromZipBuffer scenarioZip ImportMode.merge now0 emptyStore).2.1.watering.length)) :=
  ⟨by decide, by decide,
    merge_reimport_partial_idempotence scenarioZip now0 emptyStore (by decide) (by decide)⟩

end GreenTracker
